import Mathlib

/-!
Verification development for the SecureUs campus entity-resolution system.

The Python sources are shallowly embedded:
* timestamps are rational numbers of minutes since an arbitrary epoch
  (Python `datetime` differences are taken in minutes throughout the code);
* floating point confidences become rationals (the code only ever combines
  the fixed decimal literals shown in the source, so no rounding is lost);
* Python `None` becomes `Option`, missing/empty strings stay `""` where the
  code itself treats `""` as missing (falsy);
* external libraries (fuzzywuzzy string ratios, the sklearn models) enter as
  function parameters with the range hypotheses the libraries guarantee;
* Python dict / set iteration order is modelled as first-insertion order,
  and `max(xs, key=f)` as "first maximal element wins", which is what
  CPython's `max` does on equal keys.
-/

namespace SecureUs

/-- Mean of a list of rationals, as `np.mean` computes it on a non-empty
list (`sum / len`).  On `[]` this yields `0` (the code never takes a mean
of an empty list on the paths modelled here). -/
def mean (l : List ℚ) : ℚ := l.sum / l.length

/-- Maximum of a non-empty list (Python `max`); `0` on `[]`. -/
def qMax : List ℚ → ℚ
  | [] => 0
  | a :: r => r.foldl max a

/-- Minimum of a non-empty list (Python `min`); `0` on `[]`. -/
def qMin : List ℚ → ℚ
  | [] => 0
  | a :: r => r.foldl min a

/-- Deduplication keeping the FIRST occurrence of each element, in order:
the iteration order of a Python `dict` built by insertion, and the modelled
iteration order of `set(xs)`. -/
def firstDedupAux {α : Type} [DecidableEq α] (seen : List α) : List α → List α
  | [] => []
  | a :: l => if a ∈ seen then firstDedupAux seen l else a :: firstDedupAux (a :: seen) l

/-- Deduplicated list, first occurrences first. -/
def firstDedup {α : Type} [DecidableEq α] (l : List α) : List α := firstDedupAux [] l

/-- Python `max(iterable, key=score)` over `best :: rest`: walk the list and
replace the current best only on a strictly larger key, so the first maximal
element wins ties. -/
def argmaxBy {α : Type} (score : α → ℚ) : α → List α → α
  | best, [] => best
  | best, a :: l => if score best < score a then argmaxBy score a l else argmaxBy score best l

/-- Clamp a rational to the interval `[0, 1]`. -/
def clamp01 (x : ℚ) : ℚ := max 0 (min 1 x)

namespace Fusion

/-- Configuration for the fusion stage (`FUSION_CONFIG` in `config.py`).
Only the keys read by the modelled code are kept. -/
structure FusionConfig where
  confidence_threshold : ℚ
  max_time_gap_minutes : ℚ
  face_similarity_threshold : ℚ
deriving Repr

/-- Default fusion configuration from `config.py`. -/
def FUSION_CONFIG : FusionConfig :=
  { confidence_threshold := 7/10
    max_time_gap_minutes := 15
    face_similarity_threshold := 17/20 }

/-- An activity event (`ActivityEvent` in `multimodal_fusion.py`).  The raw
payload dictionary is dropped: no modelled code path reads it. -/
structure ActivityEvent where
  entity_id : String
  timestamp : ℚ
  location : String
  event_type : String
  source_dataset : String
  confidence : ℚ
deriving DecidableEq, Repr

/-- A fused record (`FusionRecord` in `multimodal_fusion.py`).  The
provenance and evidence maps and raw source payloads are dropped: no claim
reads them; `source_datasets` stands for the dataset column of
`source_records`. -/
structure FusionRecord where
  unified_entity_id : String
  timestamp : ℚ
  location : String
  activity_type : String
  confidence : ℚ
  source_datasets : List String
deriving DecidableEq, Repr

/-- Temporal clustering loop of `_cluster_temporal_events`: `cur` is the
current cluster in reverse order, `last` its most recent event. -/
def clusterAux (gap : ℚ) (cur : List ActivityEvent) (last : ActivityEvent) :
    List ActivityEvent → List (List ActivityEvent)
  | [] => [cur.reverse]
  | e :: rest =>
    if e.timestamp - last.timestamp ≤ gap then clusterAux gap (e :: cur) e rest
    else cur.reverse :: clusterAux gap [e] e rest

/-- `MultiModalFusion._cluster_temporal_events`: sort events by timestamp,
then greedily extend the current cluster while the gap to the previous
event is at most `max_time_gap_minutes`. -/
def clusterTemporalEvents (cfg : FusionConfig) (events : List ActivityEvent) :
    List (List ActivityEvent) :=
  match events.mergeSort (fun a b => a.timestamp ≤ b.timestamp) with
  | [] => []
  | e :: rest => clusterAux cfg.max_time_gap_minutes [e] e rest

/-- Per-location confidence lists of `_fuse_event_cluster`
(`location_scores[loc]`), in event order. -/
def locationConfs (events : List ActivityEvent) (loc : String) : List ℚ :=
  (events.filter (fun e => e.location = loc)).map (fun e => e.confidence)

/-- Weighted location score of `_fuse_event_cluster`:
`np.mean(location_scores[loc]) * len(location_scores[loc])`. -/
def locationScore (events : List ActivityEvent) (loc : String) : ℚ :=
  mean (locationConfs events loc) * (locationConfs events loc).length

/-- Keys of the `location_scores` dictionary, in insertion order (the first
occurrence of each location among the events). -/
def locationKeys (events : List ActivityEvent) : List String :=
  firstDedup (events.map (fun e => e.location))

/-- The `location_consistency` factor of `_calculate_fusion_confidence`:
`1.0` when the non-UNKNOWN locations number at most one distinct value,
else `0.8`.  Note that a cluster whose locations are all `UNKNOWN` gets
consistency `1.0`. -/
def locationConsistency (events : List ActivityEvent) : ℚ :=
  if (firstDedup ((events.filter (fun e => e.location ≠ "UNKNOWN")).map
      (fun e => e.location))).length ≤ 1 then 1 else 8/10

/-- The `temporal_consistency` factor of `_calculate_fusion_confidence`:
`max(0.5, 1 - time_span / max_time_gap_minutes)` for clusters of more than
one event, `1.0` otherwise. -/
def temporalConsistency (cfg : FusionConfig) (events : List ActivityEvent) : ℚ :=
  if 1 < events.length then
    max (1/2) (1 - (qMax (events.map (fun e => e.timestamp)) -
      qMin (events.map (fun e => e.timestamp))) / cfg.max_time_gap_minutes)
  else 1

/-- The multi-source bonus of `_calculate_fusion_confidence`:
`min(0.2, unique_sources * 0.05)`. -/
def sourceBonus (events : List ActivityEvent) : ℚ :=
  min (2/10) (((firstDedup (events.map (fun e => e.source_dataset))).length : ℚ) * (5/100))

/-- `MultiModalFusion._calculate_fusion_confidence`.  The face-recognition
bonus is passed in as `face_bonus` (`0.1` when a face embedding validates
above `face_similarity_threshold`, else `0`): the similarity itself comes
from an external placeholder (spec §9 flags it as such), so it is a
parameter of the embedding rather than a stub of arithmetic we own. -/
def calcFusionConfidence (cfg : FusionConfig) (face_bonus : ℚ)
    (events : List ActivityEvent) : ℚ :=
  if events.isEmpty then 0
  else
    min 1 ((mean (events.map (fun e => e.confidence)) + sourceBonus events) *
      locationConsistency events * temporalConsistency cfg events + face_bonus)

/-- `MultiModalFusion._fuse_event_cluster` on one temporal cluster:
earliest timestamp, argmax-scored primary location (over ALL locations that
occur, `UNKNOWN` included, exactly as the Python dict is built), modal
activity type, fused confidence. -/
def fuseEventCluster (cfg : FusionConfig) (face_bonus : ℚ)
    (events : List ActivityEvent) : Option FusionRecord :=
  match events with
  | [] => none
  | e0 :: _ =>
    some
      { unified_entity_id := e0.entity_id
        timestamp := qMin (events.map (fun e => e.timestamp))
        location :=
          match locationKeys events with
          | [] => "UNKNOWN"
          | k :: ks => argmaxBy (locationScore events) k ks
        activity_type :=
          match firstDedup (events.map (fun e => e.event_type)) with
          | [] => ""
          | a :: as_ =>
            argmaxBy (fun t => ((events.map (fun e => e.event_type)).count t : ℚ)) a as_
        confidence := calcFusionConfidence cfg face_bonus events
        source_datasets := events.map (fun e => e.source_dataset) }

end Fusion

namespace Timeline

/-- Configuration for the timeline stage (`TIMELINE_CONFIG` in
`config.py`); only the keys the modelled code reads. -/
structure TimelineConfig where
  max_gap_hours : ℚ
  summary_window_hours : ℚ
deriving Repr

/-- Default timeline configuration from `config.py`. -/
def TIMELINE_CONFIG : TimelineConfig :=
  { max_gap_hours := 2, summary_window_hours := 24 }

/-- Display name of a campus location: `CAMPUS_LOCATIONS` of `config.py`
read through the code's `CAMPUS_LOCATIONS.get(loc, {}).get("name", loc)`
fallback chain. -/
def campusLocationName (loc : String) : String :=
  if loc = "LAB_101" then "Computer Lab 101"
  else if loc = "LAB_102" then "Computer Lab 102"
  else if loc = "LAB_305" then "Research Lab 305"
  else if loc = "LIB_ENT" then "Library Entrance"
  else if loc = "GYM" then "Gymnasium"
  else if loc = "AUDITORIUM" then "Main Auditorium"
  else if loc = "CAF_01" then "Cafeteria"
  else if loc = "HOSTEL_GATE" then "Hostel Gate"
  else if loc = "ADMIN_LOBBY" then "Administration Lobby"
  else if loc = "SEM_01" then "Seminar Room 1"
  else if loc = "ROOM_A2" then "Classroom A2"
  else loc

/-- A timeline event (`TimelineEvent` in `timeline_generator.py`).  The
`related_events` list is dropped: no claim reads it.  `duration` is in
minutes. -/
structure TimelineEvent where
  timestamp : ℚ
  location : String
  activity : String
  description : String
  confidence : ℚ
  sources : List String
  duration : Option ℚ := none
deriving DecidableEq, Repr

/-- `TimelineGenerator._filter_by_time_range`: keep records inside the
optional `[start_time, end_time]` window (both bounds inclusive: the code
skips records strictly before the start or strictly after the end). -/
def filterByTimeRange (records : List Fusion.FusionRecord)
    (start_time end_time : Option ℚ) : List Fusion.FusionRecord :=
  match start_time, end_time with
  | none, none => records
  | _, _ =>
    records.filter (fun r =>
      (match start_time with
       | none => true
       | some s => decide (s ≤ r.timestamp)) &&
      (match end_time with
       | none => true
       | some e => decide (r.timestamp ≤ e)))

/-- `TimelineGenerator._convert_to_timeline_events`.  The per-record
description string (`_generate_event_description`, a pure template over
raw source payloads the embedding does not carry) is supplied as the
`describe` parameter. -/
def convertToTimelineEvents (describe : Fusion.FusionRecord → String)
    (records : List Fusion.FusionRecord) : List TimelineEvent :=
  records.map (fun r =>
    { timestamp := r.timestamp
      location := r.location
      activity := r.activity_type
      description := describe r
      confidence := r.confidence
      sources := r.source_datasets
      duration := none })

/-- `TimelineGenerator._create_merged_event`: a group of one is returned
unchanged; a larger group is reduced to earliest timestamp, modal
location, modal activity, combined description, mean confidence, union of
sources and full span as duration.  Python's `max(set(xs), key=xs.count)`
and `list(set(xs))` iterate a hash set; the embedding fixes the iteration
order to first occurrence. -/
def createMergedEvent (group : List TimelineEvent) : TimelineEvent :=
  match group with
  | [] => { timestamp := 0, location := "", activity := "", description := ""
            confidence := 0, sources := [], duration := none }
  | [e] => e
  | e0 :: _ :: _ =>
    { timestamp := qMin (group.map (fun e => e.timestamp))
      location :=
        match firstDedup (group.map (fun e => e.location)) with
        | [] => ""
        | a :: as_ =>
          argmaxBy (fun loc => ((group.map (fun e => e.location)).count loc : ℚ)) a as_
      activity :=
        match firstDedup (group.map (fun e => e.activity)) with
        | [] => ""
        | a :: as_ =>
          argmaxBy (fun t => ((group.map (fun e => e.activity)).count t : ℚ)) a as_
      description :=
        if (firstDedup (group.map (fun e => e.activity))).length = 1 then e0.description
        else
          "Multiple activities at " ++
            campusLocationName
              (match firstDedup (group.map (fun e => e.location)) with
               | [] => ""
               | a :: as_ =>
                 argmaxBy (fun loc => ((group.map (fun e => e.location)).count loc : ℚ)) a as_) ++
            ": " ++ String.intercalate ", " ((firstDedup (group.map (fun e => e.activity))).take 3) ++
            (if 3 < (firstDedup (group.map (fun e => e.activity))).length then
              " and " ++ toString ((firstDedup (group.map (fun e => e.activity))).length - 3) ++
                " more"
             else "")
      confidence := mean (group.map (fun e => e.confidence))
      sources := firstDedup (group.flatMap (fun e => e.sources))
      duration := some (qMax (group.map (fun e => e.timestamp)) -
        qMin (group.map (fun e => e.timestamp))) }

/-- Grouping loop of `TimelineGenerator._merge_related_events`: `cur` is
the current group in reverse order, `last` the most recently added event;
the next event joins the group when it is at most 5 minutes after `last`
and at the same location. -/
def mergeGroupsAux (cur : List TimelineEvent) (last : TimelineEvent) :
    List TimelineEvent → List (List TimelineEvent)
  | [] => [cur.reverse]
  | e :: rest =>
    if e.timestamp - last.timestamp ≤ 5 ∧ e.location = last.location then
      mergeGroupsAux (e :: cur) e rest
    else cur.reverse :: mergeGroupsAux [e] e rest

/-- `TimelineGenerator._merge_related_events`. -/
def mergeRelatedEvents : List TimelineEvent → List TimelineEvent
  | [] => []
  | e :: rest => (mergeGroupsAux [e] e rest).map createMergedEvent

/-- Duration formatting of `_create_gap_event` (`gap_minutes` is the gap
in minutes): hours and leftover minutes via Python floor division and
modulo on `total_seconds`. -/
def formatDuration (gap_minutes : ℚ) : String :=
  if 0 < ⌊gap_minutes / 60⌋ then
    if 0 < ⌊gap_minutes - 60 * (⌊gap_minutes / 60⌋ : ℚ)⌋ then
      toString ⌊gap_minutes / 60⌋ ++ "h " ++
        toString ⌊gap_minutes - 60 * (⌊gap_minutes / 60⌋ : ℚ)⌋ ++ "m"
    else toString ⌊gap_minutes / 60⌋ ++ "h"
  else toString ⌊gap_minutes - 60 * (⌊gap_minutes / 60⌋ : ℚ)⌋ ++ "m"

/-- `TimelineGenerator._create_gap_event`: the synthetic event sits 30
minutes after the event before the gap and carries the whole gap as its
duration. -/
def createGapEvent (before_event : TimelineEvent) (gap_duration : ℚ) : TimelineEvent :=
  { timestamp := before_event.timestamp + 30
    location := "UNKNOWN"
    activity := "gap"
    description := "No activity detected for " ++ formatDuration gap_duration
    confidence := 0
    sources := []
    duration := some gap_duration }

/-- `TimelineGenerator._detect_and_analyze_gaps`: after each event, when
the gap to the next event strictly exceeds `max_gap_hours`, insert a gap
event (the Python index loop does exactly this; lists shorter than two are
returned unchanged). -/
def detectAndAnalyzeGaps (cfg : TimelineConfig) : List TimelineEvent → List TimelineEvent
  | [] => []
  | [e] => [e]
  | a :: b :: rest =>
    if cfg.max_gap_hours * 60 < b.timestamp - a.timestamp then
      a :: createGapEvent a (b.timestamp - a.timestamp) :: detectAndAnalyzeGaps cfg (b :: rest)
    else a :: detectAndAnalyzeGaps cfg (b :: rest)

/-- `TimelineGenerator.generate_timeline`: filter to the window, sort by
timestamp, convert, merge related events, insert gap events. -/
def generateTimeline (cfg : TimelineConfig) (describe : Fusion.FusionRecord → String)
    (records : List Fusion.FusionRecord) (start_time end_time : Option ℚ) :
    List TimelineEvent :=
  match filterByTimeRange records start_time end_time with
  | [] => []
  | fr =>
    detectAndAnalyzeGaps cfg (mergeRelatedEvents (convertToTimelineEvents describe
      (fr.mergeSort (fun a b => a.timestamp ≤ b.timestamp))))

/-- Spec-side restatement of gap insertion for claim C6: the first event,
then for every consecutive pair its gap event (present exactly when the
pair is more than `max_gap_hours` apart) followed by the second event of
the pair. -/
def gapSpecList (cfg : TimelineConfig) (evs : List TimelineEvent) : List TimelineEvent :=
  match evs with
  | [] => []
  | e :: rest =>
    e :: (evs.zip rest).flatMap (fun p =>
      (if cfg.max_gap_hours * 60 < p.2.timestamp - p.1.timestamp then
        [createGapEvent p.1 (p.2.timestamp - p.1.timestamp)]
       else []) ++ [p.2])

end Timeline

namespace Monitor

/-- Configuration for the predictive monitor (`PREDICTION_CONFIG` in
`config.py`); only the key the modelled code reads. -/
structure PredictionConfig where
  alert_absence_hours : ℚ
deriving Repr

/-- Default monitor configuration from `config.py`. -/
def PREDICTION_CONFIG : PredictionConfig := { alert_absence_hours := 12 }

/-- An anomaly alert (`AnomalyAlert` in `predictive_monitor.py`).  The
description string, evidence map and fixed recommended-action list are
dropped: no claim reads them. -/
structure AnomalyAlert where
  entity_id : String
  alert_type : String
  severity : String
  timestamp : ℚ
deriving DecidableEq, Repr

/-- `PredictiveMonitor._check_absence_anomaly`: against the wall clock
`now` (a parameter of the embedding, `datetime.now()` in the code), when
the most recent record (Python `max(records, key=timestamp)`, first
maximal in list order) is strictly older than `alert_absence_hours`, emit
an absence alert, severity `"high"` when the silence exceeds 24 hours and
`"medium"` otherwise. -/
def checkAbsenceAnomaly (cfg : PredictionConfig) (now : ℚ)
    (entity_records : List Fusion.FusionRecord) : Option AnomalyAlert :=
  match entity_records with
  | [] => none
  | r :: rest =>
    if cfg.alert_absence_hours * 60 <
        now - (argmaxBy (fun x : Fusion.FusionRecord => x.timestamp) r rest).timestamp then
      some
        { entity_id := (argmaxBy (fun x : Fusion.FusionRecord => x.timestamp) r rest).unified_entity_id
          alert_type := "absence"
          severity :=
            if 24 * 60 <
                now - (argmaxBy (fun x : Fusion.FusionRecord => x.timestamp) r rest).timestamp
            then "high" else "medium"
          timestamp := now }
    else none

/-- `PredictiveMonitor.detect_anomalies`.  `is_trained` is the monitor's
training flag; `behavioralScore` stands for the sklearn chain
`_extract_features` → `feature_scaler.transform` →
`anomaly_detector.decision_function` (`none` when feature extraction
returns `None`), which is external model state.  An untrained monitor or
an empty record list yields no alerts; otherwise the absence alert (if
any) is followed by a behavioural alert for each of the last 10 records
scoring below `-0.5`, severity `"high"` below `-0.8`. -/
def detectAnomalies (is_trained : Bool)
    (behavioralScore : Fusion.FusionRecord → Option ℚ) (cfg : PredictionConfig)
    (now : ℚ) (entity_records : List Fusion.FusionRecord) : List AnomalyAlert :=
  if ¬is_trained ∨ entity_records = [] then []
  else
    (match checkAbsenceAnomaly cfg now entity_records with
     | some a => [a]
     | none => []) ++
    (entity_records.drop (entity_records.length - 10)).filterMap (fun r =>
      match behavioralScore r with
      | none => none
      | some s =>
        if s < -(1/2) then
          some
            { entity_id := r.unified_entity_id
              alert_type := "behavioral"
              severity := if s < -(8/10) then "high" else "medium"
              timestamp := r.timestamp }
        else none)

end Monitor

namespace Resolver

/-- Configuration for the resolver (`ENTITY_RESOLUTION_CONFIG` in
`config.py`); only the keys the modelled code reads. -/
structure ResolutionConfig where
  name_similarity_threshold : ℚ
  fuzzy_match_threshold : ℚ
  time_window_minutes : ℚ
deriving Repr

/-- Default resolver configuration from `config.py`. -/
def ENTITY_RESOLUTION_CONFIG : ResolutionConfig :=
  { name_similarity_threshold := 17/20
    fuzzy_match_threshold := 8/10
    time_window_minutes := 10 }

/-- ASCII lower-casing of one character (Python `str.lower` on the ASCII
identifiers and addresses this system handles). -/
def pyLowerChar (c : Char) : Char :=
  if 'A' ≤ c ∧ c ≤ 'Z' then Char.ofNat (c.toNat + 32) else c

/-- Python `.strip().lower()` (whitespace modelled as the space
character, the only padding the extractor can produce). -/
def pyStripLower (s : String) : String :=
  String.mk (((((s.data.map pyLowerChar).dropWhile (fun c => c = ' ')).reverse.dropWhile
    (fun c => c = ' ')).reverse))

/-- An entity record (the open dictionaries built by
`_extract_entity_records`).  Python `None` is `none`; `name`/`email` keep
`""` as the falsy missing value the code itself tests; `times` holds the
record's `first_seen`/`last_seen`/`first_note`/`last_note` values (in
minutes) as `_extract_timestamps` lists them; `locations` the values
`_extract_locations` unions (`locations_visited`, `locations_detected`,
`access_points`). -/
structure ERecord where
  record_id : String
  dataset : String
  entity_id : Option String := none
  name : String := ""
  email : String := ""
  card_id : Option String := none
  device_hash : Option String := none
  face_id : Option String := none
  student_id : Option String := none
  staff_id : Option String := none
  times : List ℚ := []
  locations : List String := []
deriving DecidableEq, Repr

/-- A pairwise match (`EntityMatch` in `entity_resolver.py`); the
evidence dictionary is dropped (no claim reads it). -/
structure EntityMatch where
  source_id : String
  target_id : String
  source_dataset : String
  target_dataset : String
  confidence : ℚ
  match_type : String
deriving DecidableEq, Repr

/-- `_check_direct_match`: both values non-`None` and equal. -/
def checkDirectMatch (v1 v2 : Option String) : Bool :=
  v1.isSome && v2.isSome && v1 == v2

/-- `_calculate_name_similarity`: strip/lower both names, `0` when either
is empty; the fuzzy score itself (the max of `fuzz.ratio`,
`token_sort_ratio` and `token_set_ratio`, each in `[0,1]`) is the
external parameter `nameFuzz`. -/
def nameSimilarity (nameFuzz : String → String → ℚ) (r1 r2 : ERecord) : ℚ :=
  if pyStripLower r1.name = "" ∨ pyStripLower r2.name = "" then 0
  else nameFuzz (pyStripLower r1.name) (pyStripLower r2.name)

/-- `_calculate_email_similarity`: strip/lower both emails, `0` when
either is empty; `fuzz.ratio / 100` is the external parameter
`emailFuzz`. -/
def emailSimilarity (emailFuzz : String → String → ℚ) (r1 r2 : ERecord) : ℚ :=
  if pyStripLower r1.email = "" ∨ pyStripLower r2.email = "" then 0
  else emailFuzz (pyStripLower r1.email) (pyStripLower r2.email)

/-- Nested maximum of `_calculate_temporal_correlation`: over all
timestamp pairs within the window, the best `1 - |Δ|/window`, starting
from `0`. -/
def temporalOverlap (window : ℚ) (times1 times2 : List ℚ) : ℚ :=
  times1.foldl (fun acc t1 =>
    times2.foldl (fun acc2 t2 =>
      if |t1 - t2| ≤ window then max acc2 (1 - |t1 - t2| / window) else acc2) acc) 0

/-- `_calculate_temporal_correlation` (`0` when either record has no
timestamps). -/
def calculateTemporalCorrelation (cfg : ResolutionConfig) (r1 r2 : ERecord) : ℚ :=
  if r1.times = [] ∨ r2.times = [] then 0
  else temporalOverlap cfg.time_window_minutes r1.times r2.times

/-- `_calculate_location_correlation`: Jaccard similarity of the two
location sets, `0` when either is empty. -/
def calculateLocationCorrelation (r1 r2 : ERecord) : ℚ :=
  if r1.locations.toFinset = ∅ ∨ r2.locations.toFinset = ∅ then 0
  else ((r1.locations.toFinset ∩ r2.locations.toFinset).card : ℚ) /
    ((r1.locations.toFinset ∪ r2.locations.toFinset).card : ℚ)

/-- The gated candidate-score list of `_compare_records`
(`confidence_scores`), in the order the code appends. -/
def confidenceScores (nameFuzz emailFuzz : String → String → ℚ) (cfg : ResolutionConfig)
    (r1 r2 : ERecord) : List ℚ :=
  (if checkDirectMatch r1.card_id r2.card_id then [(95:ℚ)/100] else []) ++
  (if checkDirectMatch r1.device_hash r2.device_hash then [(90:ℚ)/100] else []) ++
  (if checkDirectMatch r1.face_id r2.face_id then [(85:ℚ)/100] else []) ++
  (if cfg.name_similarity_threshold < nameSimilarity nameFuzz r1 r2 then
    [nameSimilarity nameFuzz r1 r2 * (8/10)] else []) ++
  (if 8/10 < emailSimilarity emailFuzz r1 r2 then
    [emailSimilarity emailFuzz r1 r2 * (7/10)] else []) ++
  (if 1/2 < calculateTemporalCorrelation cfg r1 r2 then
    [calculateTemporalCorrelation cfg r1 r2 * (6/10)] else []) ++
  (if 1/2 < calculateLocationCorrelation r1 r2 then
    [calculateLocationCorrelation r1 r2 * (5/10)] else [])

/-- `_compare_records`: a shared non-null `entity_id` short-circuits at
confidence `1.0`; otherwise the overall confidence is the maximum of the
gated candidate scores and a fuzzy match is returned iff it reaches
`fuzzy_match_threshold`. -/
def compareRecords (nameFuzz emailFuzz : String → String → ℚ) (cfg : ResolutionConfig)
    (r1 r2 : ERecord) : Option EntityMatch :=
  if checkDirectMatch r1.entity_id r2.entity_id then
    some ⟨r1.record_id, r2.record_id, r1.dataset, r2.dataset, 1, "direct_entity_id"⟩
  else
    match confidenceScores nameFuzz emailFuzz cfg r1 r2 with
    | [] => none
    | s :: srest =>
      if cfg.fuzzy_match_threshold ≤ qMax (s :: srest) then
        some ⟨r1.record_id, r2.record_id, r1.dataset, r2.dataset, qMax (s :: srest),
          "fuzzy_match"⟩
      else none

/-- All ordered pairs `(records[i], records[j])` with `i < j`, in the
iteration order of the double loop of `_find_entity_matches`. -/
def allPairs {α : Type} : List α → List (α × α)
  | [] => []
  | x :: xs => (xs.map (fun y => (x, y))) ++ allPairs xs

/-- `_find_entity_matches`: compare every pair among the first 1000
records and keep the matches reaching `fuzzy_match_threshold`. -/
def findEntityMatches (nameFuzz emailFuzz : String → String → ℚ) (cfg : ResolutionConfig)
    (entity_records : List ERecord) : List EntityMatch :=
  (allPairs (entity_records.take 1000)).filterMap (fun p =>
    match compareRecords nameFuzz emailFuzz cfg p.1 p.2 with
    | some m => if cfg.fuzzy_match_threshold ≤ m.confidence then some m else none
    | none => none)

/-- One step of the incremental connected-components construction for the
similarity graph of `_build_entity_graph`: every cluster touching either
endpoint of the new edge merges with both endpoints into one cluster.
Folding this over the accepted matches yields the connected components
(as member sets) of `networkx.connected_components`. -/
def addEdge (cs : List (List String)) (m : EntityMatch) : List (List String) :=
  (m.source_id :: m.target_id ::
    (cs.filter (fun c => m.source_id ∈ c ∨ m.target_id ∈ c)).flatten) ::
  cs.filter (fun c => ¬(m.source_id ∈ c ∨ m.target_id ∈ c))

/-- The connected components of the match graph. -/
def buildClusters (ms : List EntityMatch) : List (List String) :=
  ms.foldl addEdge []

/-- Edge weights of the subgraph a cluster induces (the `data['weight']`
values `_cluster_entities` and `_create_resolved_entities` average). -/
def clusterEdgeWeights (ms : List EntityMatch) (c : List String) : List ℚ :=
  (ms.filter (fun m => m.source_id ∈ c ∧ m.target_id ∈ c)).map (fun m => m.confidence)

/-- `_cluster_entities`: connected components filtered by mean edge
weight ≥ `fuzzy_match_threshold` for multi-node clusters (`np.mean` of an
empty edge list is NaN and fails the `>=`, hence the non-empty conjunct);
single-node clusters always pass.  Cluster size is the number of distinct
members (Python `len` of a set). -/
def clusterEntities (cfg : ResolutionConfig) (ms : List EntityMatch) :
    List (List String) :=
  (buildClusters ms).filter (fun c =>
    if 1 < (firstDedup c).length then
      decide (clusterEdgeWeights ms c ≠ []) &&
      decide (cfg.fuzzy_match_threshold ≤ mean (clusterEdgeWeights ms c))
    else true)

/-- A resolved entity (`ResolvedEntity` in `entity_resolver.py`).  The
Python sets are deduplicated lists (first-occurrence order); the
`identifiers` dictionary is flattened into its six fixed keys;
`primary_profile` is dropped (no claim reads it). -/
structure ResolvedEntity where
  unified_id : String
  entity_ids : List String
  names : List String
  card_ids : List String
  device_hashes : List String
  face_ids : List String
  student_ids : List String
  staff_ids : List String
  emails : List String
  confidence : ℚ
deriving DecidableEq, Repr

/-- Python truthiness of an optional string: `None` and `""` are falsy. -/
def truthy : Option String → Option String
  | none => none
  | some s => if s = "" then none else some s

/-- The record-lookup dictionary of `_create_resolved_entities`
(`record_lookup.get(record_id, {})`); with distinct record ids the
Python dict comprehension and this `find?` agree. -/
def lookupRecord (entity_records : List ERecord) (rid : String) : Option ERecord :=
  entity_records.find? (fun r => r.record_id = rid)

/-- Collect one identifier kind over a cluster: for each distinct member,
look the record up and keep the truthy value of the extracted field;
the result is the identifier set as a deduplicated list. -/
def collectIds (entity_records : List ERecord) (cluster : List String)
    (f : ERecord → Option String) : List String :=
  firstDedup ((firstDedup cluster).filterMap (fun rid =>
    match lookupRecord entity_records rid with
    | some r => truthy (f r)
    | none => none))

/-- Zero-padding of `f"unified_entity_{i:06d}"`. -/
def pad6 (n : ℕ) : String :=
  (String.mk (List.replicate (6 - (toString n).length) (Char.ofNat 48))) ++ toString n

/-- One resolved entity from one cluster (`_create_resolved_entities`
loop body): union identifier sets over the cluster's records, cluster
confidence = mean subgraph edge weight for multi-node clusters with at
least one edge, `1.0` otherwise. -/
def mkResolvedEntity (ms : List EntityMatch) (entity_records : List ERecord)
    (i : ℕ) (c : List String) : ResolvedEntity :=
  { unified_id := "unified_entity_" ++ pad6 i
    entity_ids := collectIds entity_records c (fun r => r.entity_id)
    names := collectIds entity_records c (fun r => some r.name)
    card_ids := collectIds entity_records c (fun r => r.card_id)
    device_hashes := collectIds entity_records c (fun r => r.device_hash)
    face_ids := collectIds entity_records c (fun r => r.face_id)
    student_ids := collectIds entity_records c (fun r => r.student_id)
    staff_ids := collectIds entity_records c (fun r => r.staff_id)
    emails := collectIds entity_records c (fun r => some r.email)
    confidence :=
      if 1 < (firstDedup c).length then
        if clusterEdgeWeights ms c = [] then 1
        else mean (clusterEdgeWeights ms c)
      else 1 }

/-- `EntityResolver.resolve_entities`, steps 2–5 (step 1, the per-dataset
aggregation, produces the `entity_records` input). -/
def resolveEntities (nameFuzz emailFuzz : String → String → ℚ) (cfg : ResolutionConfig)
    (entity_records : List ERecord) : List ResolvedEntity :=
  (clusterEntities cfg (findEntityMatches nameFuzz emailFuzz cfg entity_records)).mapIdx
    (fun i c => mkResolvedEntity (findEntityMatches nameFuzz emailFuzz cfg entity_records)
      entity_records i c)

/-- The seven channel contributions of the claim-C4 specification, in
order; an absent direct channel contributes `0`. -/
def specContributions (nameFuzz emailFuzz : String → String → ℚ) (cfg : ResolutionConfig)
    (r1 r2 : ERecord) : List ℚ :=
  [(if checkDirectMatch r1.card_id r2.card_id then (95:ℚ)/100 else 0),
    (if checkDirectMatch r1.device_hash r2.device_hash then (90:ℚ)/100 else 0),
    (if checkDirectMatch r1.face_id r2.face_id then (85:ℚ)/100 else 0),
    nameSimilarity nameFuzz r1 r2 * (8/10),
    emailSimilarity emailFuzz r1 r2 * (7/10),
    calculateTemporalCorrelation cfg r1 r2 * (6/10),
    calculateLocationCorrelation r1 r2 * (5/10)]

/-- Spec-side pair confidence of claim C4: the maximum over the seven
channel contributions, an absent channel contributing `0`. -/
def specPairConfidence (nameFuzz emailFuzz : String → String → ℚ) (cfg : ResolutionConfig)
    (r1 r2 : ERecord) : ℚ :=
  qMax (specContributions nameFuzz emailFuzz cfg r1 r2)


/-- Fixture fuzzy scorer returning `0` for every pair (a fuzzy library
that never finds names similar). -/
def zeroFuzz : String → String → ℚ := fun _ _ => 0

/-- Fixture fuzzy scorer returning `1` exactly on equal strings. -/
def eqFuzz : String → String → ℚ := fun a b => if a = b then 1 else 0

/-- Fixture record: profile of entity `E1` with card `c1` and the shared
email address. -/
def A1 : ERecord :=
  { record_id := "profile_E1", dataset := "profiles", entity_id := some "E1",
    email := "x@y", card_id := some "c1" }

/-- Fixture record: profile of entity `E2` with card `c2` and the same
email address as `A1`. -/
def B1 : ERecord :=
  { record_id := "profile_E2", dataset := "profiles", entity_id := some "E2",
    email := "x@y", card_id := some "c2" }

/-- Fixture record: a card swipe of card `c1`. -/
def C1r : ERecord :=
  { record_id := "card_c1", dataset := "card_swipes", card_id := some "c1" }

/-- Fixture record: a card swipe of card `c2`. -/
def D1 : ERecord :=
  { record_id := "card_c2", dataset := "card_swipes", card_id := some "c2" }

/-- The accepted match between `A1` and `C1r` (shared card `c1`,
confidence `0.95`). -/
def mAC : EntityMatch :=
  ⟨"profile_E1", "card_c1", "profiles", "card_swipes", 19/20, "fuzzy_match"⟩

/-- The accepted match between `B1` and `D1` (shared card `c2`,
confidence `0.95`). -/
def mBD : EntityMatch :=
  ⟨"profile_E2", "card_c2", "profiles", "card_swipes", 19/20, "fuzzy_match"⟩

/-- The first resolved entity of the fixture run: cluster of `B1` and
`D1`. -/
def ENT0 : ResolvedEntity :=
  ⟨"unified_entity_000000", ["E2"], [], ["c2"], [], [], [], [], ["x@y"], 19/20⟩

/-- The second resolved entity of the fixture run: cluster of `A1` and
`C1r`; note that its email set shares `"x@y"` with `ENT0`. -/
def ENT1 : ResolvedEntity :=
  ⟨"unified_entity_000001", ["E1"], [], ["c1"], [], [], [], [], ["x@y"], 19/20⟩

end Resolver

/-! ### General helper lemmas -/

theorem mem_firstDedupAux {α : Type} [DecidableEq α] (seen : List α) (l : List α) (a : α) :
    a ∈ firstDedupAux seen l ↔ a ∈ l ∧ a ∉ seen := by
  induction l generalizing seen with
  | nil => simp [firstDedupAux]
  | cons x xs ih =>
    simp only [firstDedupAux]
    by_cases hx : x ∈ seen
    · rw [if_pos hx, ih]
      by_cases hax : a = x
      · subst hax; simp [hx]
      · simp [hax]
    · rw [if_neg hx]
      simp only [List.mem_cons, ih, List.mem_cons]
      by_cases hax : a = x
      · subst hax; simp [hx]
      · simp [hax]

theorem mem_firstDedup {α : Type} [DecidableEq α] (l : List α) (a : α) :
    a ∈ firstDedup l ↔ a ∈ l := by
  rw [firstDedup, mem_firstDedupAux]
  simp

theorem firstDedupAux_eq_nil {α : Type} [DecidableEq α] (seen : List α) (l : List α)
    (h : ∀ a ∈ l, a ∈ seen) : firstDedupAux seen l = [] := by
  induction l generalizing seen with
  | nil => rfl
  | cons x xs ih =>
    have hx : x ∈ seen := h x (by simp)
    simp only [firstDedupAux, if_pos hx]
    exact ih seen fun a ha => h a (by simp [ha])

theorem length_firstDedup_le_one {α : Type} [DecidableEq α] (l : List α) :
    (firstDedup l).length ≤ 1 ↔ ∀ a ∈ l, ∀ b ∈ l, a = b := by
  constructor
  · intro h a ha b hb
    have ha' : a ∈ firstDedup l := (mem_firstDedup l a).2 ha
    have hb' : b ∈ firstDedup l := (mem_firstDedup l b).2 hb
    match hfd : firstDedup l with
    | [] => rw [hfd] at ha'; cases ha'
    | [x] =>
      rw [hfd] at ha' hb'
      simp only [List.mem_singleton] at ha' hb'
      rw [ha', hb']
    | x :: y :: rest => rw [hfd] at h; simp at h
  · intro h
    match hl : l with
    | [] => simp [firstDedup, firstDedupAux]
    | x :: xs =>
      have : firstDedup (x :: xs) = x :: firstDedupAux [x] xs := by
        simp [firstDedup, firstDedupAux]
      rw [this, firstDedupAux_eq_nil [x] xs]
      · simp
      · intro a ha
        have := h a (by simp [ha]) x (by simp)
        simp [this]

theorem argmaxBy_mem {α : Type} (f : α → ℚ) (b : α) (l : List α) :
    argmaxBy f b l ∈ b :: l := by
  induction l generalizing b with
  | nil => simp [argmaxBy]
  | cons c l2 ih =>
    simp only [argmaxBy]
    by_cases h : f b < f c
    · rw [if_pos h]
      have h2 := ih c
      simp only [List.mem_cons] at h2 ⊢
      tauto
    · rw [if_neg h]
      have h2 := ih b
      simp only [List.mem_cons] at h2 ⊢
      tauto

theorem argmaxBy_le {α : Type} (f : α → ℚ) (b : α) (l : List α) :
    ∀ x ∈ b :: l, f x ≤ f (argmaxBy f b l) := by
  induction l generalizing b with
  | nil =>
    intro x hx
    simp only [List.mem_cons, List.not_mem_nil, or_false] at hx
    subst hx
    simp [argmaxBy]
  | cons c l2 ih =>
    intro x hx
    simp only [List.mem_cons] at hx
    simp only [argmaxBy]
    by_cases h : f b < f c
    · rw [if_pos h]
      rcases hx with h1 | h1 | h1
      · rw [h1]; exact le_trans h.le (ih c c (by simp))
      · rw [h1]; exact ih c c (by simp)
      · exact ih c x (by simp [h1])
    · rw [if_neg h]
      push_neg at h
      rcases hx with h1 | h1 | h1
      · rw [h1]; exact ih b b (by simp)
      · rw [h1]; exact le_trans h (ih b b (by simp))
      · exact ih b x (by simp [h1])

theorem mean_nonneg (l : List ℚ) (h : ∀ x ∈ l, 0 ≤ x) : 0 ≤ mean l := by
  unfold mean
  exact div_nonneg (List.sum_nonneg h) (by positivity)

theorem mul_length_le_sum (t : ℚ) (l : List ℚ) (h : ∀ x ∈ l, t ≤ x) :
    t * l.length ≤ l.sum := by
  induction l with
  | nil => simp
  | cons x xs ih =>
    have hx := h x (by simp)
    have ihs := ih fun y hy => h y (by simp [hy])
    simp only [List.length_cons, List.sum_cons, Nat.cast_add, Nat.cast_one]
    nlinarith

theorem mean_ge (l : List ℚ) (t : ℚ) (hne : l ≠ []) (h : ∀ x ∈ l, t ≤ x) :
    t ≤ mean l := by
  unfold mean
  have hlen : 0 < (l.length : ℚ) := by
    have := List.length_pos.2 hne
    exact_mod_cast this
  rw [le_div_iff₀ hlen]
  exact mul_length_le_sum t l h

namespace Fusion

theorem sourceBonus_nonneg (events : List ActivityEvent) : 0 ≤ sourceBonus events := by
  unfold sourceBonus
  exact le_min (by norm_num) (by positivity)

theorem locationConsistency_nonneg (events : List ActivityEvent) :
    0 ≤ locationConsistency events := by
  unfold locationConsistency
  split <;> norm_num

theorem temporalConsistency_nonneg (cfg : FusionConfig) (events : List ActivityEvent) :
    0 ≤ temporalConsistency cfg events := by
  unfold temporalConsistency
  split
  · exact le_trans (by norm_num) (le_max_left _ _)
  · norm_num

theorem locationConsistency_eq_spec (events : List ActivityEvent) :
    locationConsistency events =
      (if ∀ l1 ∈ (events.filter (fun e => e.location ≠ "UNKNOWN")).map (fun e => e.location),
          ∀ l2 ∈ (events.filter (fun e => e.location ≠ "UNKNOWN")).map (fun e => e.location),
          l1 = l2 then 1 else 8/10) := by
  unfold locationConsistency
  by_cases hc : ∀ l1 ∈ (events.filter (fun e => e.location ≠ "UNKNOWN")).map (fun e => e.location),
      ∀ l2 ∈ (events.filter (fun e => e.location ≠ "UNKNOWN")).map (fun e => e.location), l1 = l2
  · rw [if_pos ((length_firstDedup_le_one _).2 hc), if_pos hc]
  · rw [if_neg (fun hh => hc ((length_firstDedup_le_one _).1 hh)), if_neg hc]

theorem temporalConsistency_eq_spec (cfg : FusionConfig) (events : List ActivityEvent) :
    temporalConsistency cfg events =
      (if events.length ≤ 1 then 1
       else max (1/2) (1 - (qMax (events.map (fun e => e.timestamp)) -
          qMin (events.map (fun e => e.timestamp))) / cfg.max_time_gap_minutes)) := by
  unfold temporalConsistency
  rcases Nat.lt_or_ge 1 events.length with hlt | hge
  · rw [if_pos hlt, if_neg (by omega)]
  · rw [if_neg (by omega), if_pos hge]

/-- CLAIM C3 (confirmed).  For every non-empty temporal cluster of activity
events with non-negative per-event confidences and non-negative face bonus,
the emitted fusion record's confidence equals the clamp to `[0,1]` of
`((mean of base confidences + min(0.20, 0.05 × distinct sources)) ×
location_consistency × temporal_consistency) + face_bonus`, where location
consistency is `1` exactly when all non-UNKNOWN locations agree (else
`0.8`) and temporal consistency is `max(0.5, 1 − span/max_gap)` with `1`
for single-event clusters; consequently the confidence lies in `[0,1]`. -/
theorem fusion_confidence_formula (cfg : FusionConfig) (face_bonus : ℚ)
    (events : List ActivityEvent) (rec : FusionRecord)
    (hconf : ∀ e ∈ events, 0 ≤ e.confidence)
    (hfb : 0 ≤ face_bonus)
    (h : fuseEventCluster cfg face_bonus events = some rec) :
    rec.confidence =
      clamp01 ((mean (events.map (fun e => e.confidence)) + sourceBonus events) *
        (if ∀ l1 ∈ (events.filter (fun e => e.location ≠ "UNKNOWN")).map (fun e => e.location),
            ∀ l2 ∈ (events.filter (fun e => e.location ≠ "UNKNOWN")).map (fun e => e.location),
            l1 = l2 then 1 else 8/10) *
        (if events.length ≤ 1 then 1
         else max (1/2) (1 - (qMax (events.map (fun e => e.timestamp)) -
            qMin (events.map (fun e => e.timestamp))) / cfg.max_time_gap_minutes)) +
        face_bonus) ∧
    0 ≤ rec.confidence ∧ rec.confidence ≤ 1 := by
  cases events with
  | nil => simp [fuseEventCluster] at h
  | cons e0 rest =>
    simp only [fuseEventCluster, Option.some.injEq] at h
    subst h
    have hfinal : 0 ≤ (mean ((e0 :: rest).map (fun e => e.confidence)) +
        sourceBonus (e0 :: rest)) * locationConsistency (e0 :: rest) *
        temporalConsistency cfg (e0 :: rest) + face_bonus := by
      have h1 : 0 ≤ mean ((e0 :: rest).map (fun e => e.confidence)) := by
        refine mean_nonneg _ ?_
        intro x hx
        simp only [List.mem_map] at hx
        obtain ⟨e, he, rfl⟩ := hx
        exact hconf e he
      have h2 := sourceBonus_nonneg (e0 :: rest)
      have h3 := locationConsistency_nonneg (e0 :: rest)
      have h4 := temporalConsistency_nonneg cfg (e0 :: rest)
      positivity
    have hcalc : calcFusionConfidence cfg face_bonus (e0 :: rest) =
        min 1 ((mean ((e0 :: rest).map (fun e => e.confidence)) + sourceBonus (e0 :: rest)) *
          locationConsistency (e0 :: rest) * temporalConsistency cfg (e0 :: rest) +
          face_bonus) := by
      simp [calcFusionConfidence]
    refine ⟨?_, ?_, ?_⟩
    · show calcFusionConfidence cfg face_bonus (e0 :: rest) = _
      rw [hcalc, ← locationConsistency_eq_spec, ← temporalConsistency_eq_spec, clamp01,
        max_eq_right]
      exact le_min (by norm_num) hfinal
    · show 0 ≤ calcFusionConfidence cfg face_bonus (e0 :: rest)
      rw [hcalc]
      exact le_min (by norm_num) hfinal
    · show calcFusionConfidence cfg face_bonus (e0 :: rest) ≤ 1
      rw [hcalc]
      exact min_le_left _ _

/-- Witness for C3: a concrete single-event cluster. -/
theorem fusion_confidence_formula_witness :
    fuseEventCluster FUSION_CONFIG 0
      [⟨"u", 3, "LAB_101", "card_swipe", "card_swipes", 19/20⟩] =
      some ⟨"u", 3, "LAB_101", "card_swipe", 1, ["card_swipes"]⟩ ∧
    (1 : ℚ) = clamp01 ((mean ([⟨"u", 3, "LAB_101", "card_swipe", "card_swipes", 19/20⟩].map
        (fun e : ActivityEvent => e.confidence)) +
        sourceBonus [⟨"u", 3, "LAB_101", "card_swipe", "card_swipes", 19/20⟩]) * 1 * 1 + 0) := by
  have hsome : fuseEventCluster FUSION_CONFIG 0
      [⟨"u", 3, "LAB_101", "card_swipe", "card_swipes", 19/20⟩] =
      some ⟨"u", 3, "LAB_101", "card_swipe", 1, ["card_swipes"]⟩ := by
    simp +decide [fuseEventCluster, locationKeys, firstDedup, firstDedupAux, argmaxBy,
      locationScore, locationConfs, mean, List.filter, qMin, calcFusionConfidence,
      sourceBonus, locationConsistency, temporalConsistency, FUSION_CONFIG]
    norm_num
  have hmain := fusion_confidence_formula FUSION_CONFIG 0
    [⟨"u", 3, "LAB_101", "card_swipe", "card_swipes", 19/20⟩]
    ⟨"u", 3, "LAB_101", "card_swipe", 1, ["card_swipes"]⟩
    (by intro e he; simp at he; subst he; norm_num)
    le_rfl hsome
  refine ⟨hsome, ?_⟩
  have h1 := hmain.1
  simpa +decide [List.filter, qMax, qMin] using h1

/-- CLAIM C5 (corrected), counterexample.  A cluster holding three
`UNKNOWN`-location events of confidence `0.7` and one `LAB_101` event of
confidence `0.95` selects `UNKNOWN` as the fusion record's location even
though a non-UNKNOWN location is present: `_fuse_event_cluster` scores the
`UNKNOWN` key like any other (`0.7 × 3 = 2.1 > 0.95`), contradicting the
claim that `UNKNOWN` is selected only when every event is `UNKNOWN`. -/
theorem primary_location_counterexample :
    (fuseEventCluster FUSION_CONFIG 0 [⟨"u", 0, "UNKNOWN", "note_x", "notes", 7/10⟩,
      ⟨"u", 1, "UNKNOWN", "note_x", "notes", 7/10⟩,
      ⟨"u", 2, "UNKNOWN", "note_x", "notes", 7/10⟩,
      ⟨"u", 3, "LAB_101", "card_swipe", "card_swipes", 19/20⟩]).map (fun r => r.location) =
      some "UNKNOWN" ∧
    "LAB_101" ∈ ([⟨"u", 0, "UNKNOWN", "note_x", "notes", 7/10⟩,
      ⟨"u", 1, "UNKNOWN", "note_x", "notes", 7/10⟩,
      ⟨"u", 2, "UNKNOWN", "note_x", "notes", 7/10⟩,
      ⟨"u", 3, "LAB_101", "card_swipe", "card_swipes", 19/20⟩] :
        List ActivityEvent).map (fun e => e.location) ∧
    "LAB_101" ≠ "UNKNOWN" := by
  refine ⟨?_, by simp, by simp⟩
  simp +decide [fuseEventCluster, locationKeys, firstDedup, firstDedupAux, argmaxBy,
    locationScore, locationConfs, mean, List.filter]
  norm_num

/-- CLAIM C5 (corrected), amended claim.  The fusion record's location is
an argmax of (mean confidence × count) over ALL locations occurring in the
cluster, `UNKNOWN` included — the location is one of the cluster's
locations and its score is maximal among them; `UNKNOWN` is not excluded
from the selection. -/
theorem primary_location_argmax (cfg : FusionConfig) (face_bonus : ℚ)
    (events : List ActivityEvent) (rec : FusionRecord)
    (h : fuseEventCluster cfg face_bonus events = some rec) :
    rec.location ∈ events.map (fun e => e.location) ∧
    ∀ loc ∈ events.map (fun e => e.location),
      locationScore events loc ≤ locationScore events rec.location := by
  cases events with
  | nil => simp [fuseEventCluster] at h
  | cons e0 rest =>
    simp only [fuseEventCluster, Option.some.injEq] at h
    subst h
    cases hk : locationKeys (e0 :: rest) with
    | nil =>
      exfalso
      have hmem : e0.location ∈ locationKeys (e0 :: rest) :=
        (mem_firstDedup _ _).2 (by simp)
      rw [hk] at hmem
      cases hmem
    | cons k ks =>
      dsimp only
      constructor
      · have hin := argmaxBy_mem (locationScore (e0 :: rest)) k ks
        rw [← hk] at hin
        exact (mem_firstDedup _ _).1 hin
      · intro loc hloc
        have hlk : loc ∈ k :: ks := by
          rw [← hk]
          exact (mem_firstDedup _ _).2 hloc
        exact argmaxBy_le (locationScore (e0 :: rest)) k ks loc hlk

/-- Witness for the amended C5: the counterexample cluster, where the
argmax property holds of the selected `UNKNOWN` location. -/
theorem primary_location_argmax_witness :
    "UNKNOWN" ∈ ([⟨"u", 0, "UNKNOWN", "note_x", "notes", 7/10⟩,
      ⟨"u", 1, "UNKNOWN", "note_x", "notes", 7/10⟩,
      ⟨"u", 2, "UNKNOWN", "note_x", "notes", 7/10⟩,
      ⟨"u", 3, "LAB_101", "card_swipe", "card_swipes", 19/20⟩] :
        List ActivityEvent).map (fun e => e.location) ∧
    ∀ loc ∈ ([⟨"u", 0, "UNKNOWN", "note_x", "notes", 7/10⟩,
      ⟨"u", 1, "UNKNOWN", "note_x", "notes", 7/10⟩,
      ⟨"u", 2, "UNKNOWN", "note_x", "notes", 7/10⟩,
      ⟨"u", 3, "LAB_101", "card_swipe", "card_swipes", 19/20⟩] :
        List ActivityEvent).map (fun e => e.location),
      locationScore [⟨"u", 0, "UNKNOWN", "note_x", "notes", 7/10⟩,
        ⟨"u", 1, "UNKNOWN", "note_x", "notes", 7/10⟩,
        ⟨"u", 2, "UNKNOWN", "note_x", "notes", 7/10⟩,
        ⟨"u", 3, "LAB_101", "card_swipe", "card_swipes", 19/20⟩] loc ≤
      locationScore [⟨"u", 0, "UNKNOWN", "note_x", "notes", 7/10⟩,
        ⟨"u", 1, "UNKNOWN", "note_x", "notes", 7/10⟩,
        ⟨"u", 2, "UNKNOWN", "note_x", "notes", 7/10⟩,
        ⟨"u", 3, "LAB_101", "card_swipe", "card_swipes", 19/20⟩] "UNKNOWN" := by
  have hsome : fuseEventCluster FUSION_CONFIG 0 [⟨"u", 0, "UNKNOWN", "note_x", "notes", 7/10⟩,
      ⟨"u", 1, "UNKNOWN", "note_x", "notes", 7/10⟩,
      ⟨"u", 2, "UNKNOWN", "note_x", "notes", 7/10⟩,
      ⟨"u", 3, "LAB_101", "card_swipe", "card_swipes", 19/20⟩] =
      some ⟨"u", 0, "UNKNOWN", "note_x", 69/100, ["notes", "notes", "notes", "card_swipes"]⟩ := by
    simp +decide [fuseEventCluster, locationKeys, firstDedup, firstDedupAux, argmaxBy,
      locationScore, locationConfs, mean, List.filter, qMin, calcFusionConfidence,
      sourceBonus, locationConsistency, temporalConsistency, FUSION_CONFIG, qMax]
    norm_num
  exact primary_location_argmax FUSION_CONFIG 0 _ _ hsome

/-- CLAIM C7 (corrected), counterexample.  A single card-swipe event of
base confidence `0.95` fuses to confidence `1`, not `0.95`: with one
source the bonus is `min(0.2, 1 × 0.05) = 0.05`, never `0`, so the stated
condition "source_bonus is 0" is unsatisfiable and the fused confidence is
`min(1, 0.95 + 0.05) = 1 ≠ 0.95`. -/
theorem single_event_confidence_counterexample :
    (fuseEventCluster FUSION_CONFIG 0
      [⟨"u", 0, "LAB_101", "card_swipe", "card_swipes", 19/20⟩]).map (fun r => r.confidence) =
      some 1 ∧ (1 : ℚ) ≠ 19/20 := by
  constructor
  · simp +decide [fuseEventCluster, calcFusionConfidence, mean, sourceBonus,
      locationConsistency, temporalConsistency, FUSION_CONFIG, firstDedup, firstDedupAux,
      List.filter, qMin, qMax, locationKeys, argmaxBy]
    norm_num
  · norm_num

/-- CLAIM C7 (corrected), amended claim.  For a single-event cluster (one
event from one source, no face bonus) the fused confidence equals
`min(1, base_confidence + 0.05)`: location and temporal consistency are
both `1`, but the single-source bonus is `0.05`, not `0`. -/
theorem single_event_confidence (cfg : FusionConfig) (e : ActivityEvent) :
    (fuseEventCluster cfg 0 [e]).map (fun r => r.confidence) =
      some (min 1 (e.confidence + 5/100)) := by
  have hlc : locationConsistency [e] = 1 := by
    unfold locationConsistency
    rw [if_pos]
    by_cases hl : e.location = "UNKNOWN" <;>
      simp [List.filter, hl, firstDedup, firstDedupAux]
  have htc : temporalConsistency cfg [e] = 1 := by
    unfold temporalConsistency
    rw [if_neg (by simp)]
  have hsb : sourceBonus [e] = 5/100 := by
    unfold sourceBonus
    have : (firstDedup ([e].map (fun x => x.source_dataset))).length = 1 := by
      simp [firstDedup, firstDedupAux]
    rw [this]
    norm_num
  have hm : mean ([e].map (fun x => x.confidence)) = e.confidence := by
    simp [mean]
  have hcalc : calcFusionConfidence cfg 0 [e] = min 1 (e.confidence + 5/100) := by
    unfold calcFusionConfidence
    rw [if_neg (by simp)]
    rw [hlc, htc, hsb, hm]
    ring_nf
  simp [fuseEventCluster, hcalc]

end Fusion

theorem foldl_min_le (r : List ℚ) : ∀ a x : ℚ, x = a ∨ x ∈ r → r.foldl min a ≤ x := by
  induction r with
  | nil =>
    intro a x hx
    rcases hx with rfl | hx
    · simp
    · cases hx
  | cons b r2 ih =>
    intro a x hx
    simp only [List.foldl]
    rcases hx with h1 | h1
    · rw [h1]
      exact le_trans (ih (min a b) (min a b) (Or.inl rfl)) (min_le_left a b)
    · rcases List.mem_cons.mp h1 with h2 | h2
      · rw [h2]
        exact le_trans (ih (min a b) (min a b) (Or.inl rfl)) (min_le_right a b)
      · exact ih (min a b) x (Or.inr h2)

theorem qMin_le_of_mem (l : List ℚ) (x : ℚ) (hx : x ∈ l) : qMin l ≤ x := by
  cases l with
  | nil => cases hx
  | cons a r =>
    rcases List.mem_cons.mp hx with h1 | h1
    · exact foldl_min_le r a x (Or.inl h1)
    · exact foldl_min_le r a x (Or.inr h1)

theorem foldl_min_mem (r : List ℚ) : ∀ a : ℚ, r.foldl min a ∈ a :: r := by
  induction r with
  | nil => intro a; simp
  | cons b r2 ih =>
    intro a
    simp only [List.foldl]
    rcases List.mem_cons.mp (ih (min a b)) with h1 | h1
    · rw [h1]
      rcases min_choice a b with h2 | h2 <;> rw [h2] <;> simp
    · simp [h1]

theorem qMin_mem (l : List ℚ) (h : l ≠ []) : qMin l ∈ l := by
  cases l with
  | nil => exact absurd rfl h
  | cons a r => exact foldl_min_mem r a

theorem foldl_max_ge (r : List ℚ) : ∀ a x : ℚ, x = a ∨ x ∈ r → x ≤ r.foldl max a := by
  induction r with
  | nil =>
    intro a x hx
    rcases hx with rfl | hx
    · simp
    · cases hx
  | cons b r2 ih =>
    intro a x hx
    simp only [List.foldl]
    rcases hx with h1 | h1
    · rw [h1]
      exact le_trans (le_max_left a b) (ih (max a b) (max a b) (Or.inl rfl))
    · rcases List.mem_cons.mp h1 with h2 | h2
      · rw [h2]
        exact le_trans (le_max_right a b) (ih (max a b) (max a b) (Or.inl rfl))
      · exact ih (max a b) x (Or.inr h2)

theorem qMax_ge_of_mem (l : List ℚ) (x : ℚ) (hx : x ∈ l) : x ≤ qMax l := by
  cases l with
  | nil => cases hx
  | cons a r =>
    rcases List.mem_cons.mp hx with h1 | h1
    · exact foldl_max_ge r a x (Or.inl h1)
    · exact foldl_max_ge r a x (Or.inr h1)

theorem foldl_max_mem (r : List ℚ) : ∀ a : ℚ, r.foldl max a ∈ a :: r := by
  induction r with
  | nil => intro a; simp
  | cons b r2 ih =>
    intro a
    simp only [List.foldl]
    rcases List.mem_cons.mp (ih (max a b)) with h1 | h1
    · rw [h1]
      rcases max_choice a b with h2 | h2 <;> rw [h2] <;> simp
    · simp [h1]

theorem qMax_mem (l : List ℚ) (h : l ≠ []) : qMax l ∈ l := by
  cases l with
  | nil => exact absurd rfl h
  | cons a r => exact foldl_max_mem r a

theorem argmaxBy_eq_qMax {α : Type} (f : α → ℚ) (b : α) (l : List α) :
    f (argmaxBy f b l) = qMax ((b :: l).map f) := by
  apply le_antisymm
  · exact qMax_ge_of_mem _ _ (List.mem_map.mpr ⟨argmaxBy f b l, argmaxBy_mem f b l, rfl⟩)
  · have hmem := qMax_mem ((b :: l).map f) (by simp)
    rcases List.mem_map.mp hmem with ⟨x, hx, hfx⟩
    rw [← hfx]
    exact argmaxBy_le f b l x hx

namespace Timeline

theorem createMergedEvent_timestamp (g : List TimelineEvent) (hg : g ≠ []) :
    (createMergedEvent g).timestamp = qMin (g.map (fun e => e.timestamp)) := by
  match g with
  | [e] => simp [createMergedEvent, qMin]
  | e0 :: e1 :: r => rfl

theorem mergeGroupsAux_sorted (rest : List TimelineEvent) :
    ∀ (cur : List TimelineEvent) (last : TimelineEvent), cur ≠ [] →
      List.Pairwise (fun a b => a.timestamp ≤ b.timestamp) (cur.reverse ++ rest) →
      List.Pairwise (fun a b => a.timestamp ≤ b.timestamp)
        ((mergeGroupsAux cur last rest).map createMergedEvent) ∧
      ∀ m ∈ (mergeGroupsAux cur last rest).map createMergedEvent,
        ∃ x ∈ cur.reverse ++ rest, x.timestamp ≤ m.timestamp := by
  induction rest with
  | nil =>
    intro cur last hcur _
    constructor
    · simp [mergeGroupsAux]
    · intro m hm
      simp only [mergeGroupsAux, List.map_cons, List.map_nil, List.mem_singleton] at hm
      subst hm
      have hrev : cur.reverse ≠ [] := by simpa using hcur
      rw [createMergedEvent_timestamp _ hrev]
      have hmem := qMin_mem ((cur.reverse).map (fun e => e.timestamp)) (by simpa using hrev)
      rcases List.mem_map.mp hmem with ⟨x, hx, hxts⟩
      exact ⟨x, by simp [hx], by rw [hxts]⟩
  | cons e rest2 ih =>
    intro cur last hcur hsort
    simp only [mergeGroupsAux]
    by_cases hc : e.timestamp - last.timestamp ≤ 5 ∧ e.location = last.location
    · rw [if_pos hc]
      have heq : (e :: cur).reverse ++ rest2 = cur.reverse ++ e :: rest2 := by simp
      have hmain := ih (e :: cur) e (by simp) (by rw [heq]; exact hsort)
      refine ⟨hmain.1, ?_⟩
      intro m hm
      obtain ⟨x, hx, hxle⟩ := hmain.2 m hm
      rw [heq] at hx
      exact ⟨x, hx, hxle⟩
    · rw [if_neg hc]
      have hsplit := List.pairwise_append.mp hsort
      have ih2 := ih [e] e (by simp) (by simpa using hsplit.2.1)
      have hrev : cur.reverse ≠ [] := by simpa using hcur
      have hts : (createMergedEvent cur.reverse).timestamp =
          qMin ((cur.reverse).map (fun e => e.timestamp)) :=
        createMergedEvent_timestamp _ hrev
      have hmem := qMin_mem ((cur.reverse).map (fun e => e.timestamp)) (by simpa using hrev)
      rcases List.mem_map.mp hmem with ⟨y0, hy0, hy0ts⟩
      constructor
      · rw [List.map_cons, List.pairwise_cons]
        constructor
        · intro m hm
          obtain ⟨x, hx, hxle⟩ := ih2.2 m hm
          have hx2 : x ∈ e :: rest2 := by simpa using hx
          calc (createMergedEvent cur.reverse).timestamp = y0.timestamp := by rw [hts, hy0ts]
            _ ≤ x.timestamp := hsplit.2.2 y0 hy0 x hx2
            _ ≤ m.timestamp := hxle
        · exact ih2.1
      · intro m hm
        rcases List.mem_cons.mp hm with h1 | h1
        · refine ⟨y0, by simp [hy0], ?_⟩
          rw [h1, hts, ← hy0ts]
        · obtain ⟨x, hx, hxle⟩ := ih2.2 m h1
          have hx2 : x ∈ e :: rest2 := by simpa using hx
          exact ⟨x, List.mem_append.mpr (Or.inr hx2), hxle⟩

theorem mergeRelatedEvents_sorted (evs : List TimelineEvent)
    (h : List.Pairwise (fun a b => a.timestamp ≤ b.timestamp) evs) :
    List.Pairwise (fun a b => a.timestamp ≤ b.timestamp) (mergeRelatedEvents evs) := by
  cases evs with
  | nil => simp [mergeRelatedEvents]
  | cons e rest =>
    exact (mergeGroupsAux_sorted rest [e] e (by simp) (by simpa using h)).1

theorem detectAndAnalyzeGaps_eq_gapSpecList (cfg : TimelineConfig) :
    ∀ evs : List TimelineEvent, detectAndAnalyzeGaps cfg evs = gapSpecList cfg evs
  | [] => rfl
  | [e] => rfl
  | a :: b :: rest => by
    have ih := detectAndAnalyzeGaps_eq_gapSpecList cfg (b :: rest)
    simp only [detectAndAnalyzeGaps, gapSpecList, List.zip_cons_cons, List.flatMap_cons] at ih ⊢
    by_cases hc : cfg.max_gap_hours * 60 < b.timestamp - a.timestamp <;> simp [hc, ih]

theorem mem_detectAndAnalyzeGaps (cfg : TimelineConfig) :
    ∀ (evs : List TimelineEvent) (x : TimelineEvent), x ∈ detectAndAnalyzeGaps cfg evs →
      x ∈ evs ∨ ∃ p ∈ evs.zip evs.tail,
        cfg.max_gap_hours * 60 < p.2.timestamp - p.1.timestamp ∧
        x = createGapEvent p.1 (p.2.timestamp - p.1.timestamp)
  | [], x, hx => by cases hx
  | [e], x, hx => by
    left
    simpa [detectAndAnalyzeGaps] using hx
  | a :: b :: rest, x, hx => by
    have hstep : ∀ hx2 : x ∈ detectAndAnalyzeGaps cfg (b :: rest),
        x ∈ a :: b :: rest ∨ ∃ p ∈ (a :: b :: rest).zip (b :: rest),
          cfg.max_gap_hours * 60 < p.2.timestamp - p.1.timestamp ∧
          x = createGapEvent p.1 (p.2.timestamp - p.1.timestamp) := by
      intro hx2
      rcases mem_detectAndAnalyzeGaps cfg (b :: rest) x hx2 with h1 | ⟨p, hp, hplt, hpe⟩
      · left
        exact List.mem_cons.mpr (Or.inr h1)
      · right
        refine ⟨p, ?_, hplt, hpe⟩
        rw [List.zip_cons_cons]
        exact List.mem_cons.mpr (Or.inr (by simpa using hp))
    by_cases hc : cfg.max_gap_hours * 60 < b.timestamp - a.timestamp
    · rw [detectAndAnalyzeGaps, if_pos hc] at hx
      rcases List.mem_cons.mp hx with h1 | hx2
      · left; simp [h1]
      rcases List.mem_cons.mp hx2 with h1 | hx3
      · right
        refine ⟨(a, b), ?_, hc, h1⟩
        simp
      · simp only [List.tail] at hstep ⊢
        exact hstep hx3
    · rw [detectAndAnalyzeGaps, if_neg hc] at hx
      rcases List.mem_cons.mp hx with h1 | hx2
      · left; simp [h1]
      · simp only [List.tail] at hstep ⊢
        exact hstep hx2

theorem detect_lower_bound (cfg : TimelineConfig) (evs : List TimelineEvent)
    (x : TimelineEvent) (hx : x ∈ detectAndAnalyzeGaps cfg evs) :
    ∃ z ∈ evs, z.timestamp ≤ x.timestamp := by
  rcases mem_detectAndAnalyzeGaps cfg evs x hx with h1 | ⟨p, hp, _, hpe⟩
  · exact ⟨x, h1, le_refl _⟩
  · obtain ⟨p1, p2⟩ := p
    refine ⟨p1, (List.of_mem_zip hp).1, ?_⟩
    rw [hpe]
    simp only [createGapEvent]
    linarith

theorem detectAndAnalyzeGaps_sorted (cfg : TimelineConfig) (hgap : 1/2 ≤ cfg.max_gap_hours) :
    ∀ evs : List TimelineEvent,
      List.Pairwise (fun a b => a.timestamp ≤ b.timestamp) evs →
      List.Pairwise (fun a b => a.timestamp ≤ b.timestamp) (detectAndAnalyzeGaps cfg evs)
  | [], _ => by simp [detectAndAnalyzeGaps]
  | [e], _ => by simp [detectAndAnalyzeGaps]
  | a :: b :: rest, h => by
    have hab : a.timestamp ≤ b.timestamp := (List.pairwise_cons.mp h).1 b (by simp)
    have htail := (List.pairwise_cons.mp h).2
    have hrec := detectAndAnalyzeGaps_sorted cfg hgap (b :: rest) htail
    have hbound : ∀ y ∈ detectAndAnalyzeGaps cfg (b :: rest), b.timestamp ≤ y.timestamp := by
      intro y hy
      obtain ⟨z, hz, hzle⟩ := detect_lower_bound cfg (b :: rest) y hy
      have hbz : b.timestamp ≤ z.timestamp := by
        rcases List.mem_cons.mp hz with h1 | h1
        · rw [h1]
        · exact (List.pairwise_cons.mp htail).1 z h1
      linarith
    by_cases hc : cfg.max_gap_hours * 60 < b.timestamp - a.timestamp
    · rw [detectAndAnalyzeGaps, if_pos hc, List.pairwise_cons]
      constructor
      · intro y hy
        rcases List.mem_cons.mp hy with h1 | h1
        · rw [h1]
          simp only [createGapEvent]
          linarith
        · exact le_trans hab (hbound y h1)
      rw [List.pairwise_cons]
      constructor
      · intro y hy
        have h30 : a.timestamp + 30 ≤ b.timestamp := by linarith
        have hby := hbound y hy
        simp only [createGapEvent]
        linarith
      · exact hrec
    · rw [detectAndAnalyzeGaps, if_neg hc, List.pairwise_cons]
      exact ⟨fun y hy => le_trans hab (hbound y hy), hrec⟩

theorem sortRecords_sorted (records : List Fusion.FusionRecord) :
    List.Pairwise (fun a b : Fusion.FusionRecord => a.timestamp ≤ b.timestamp)
      (records.mergeSort (fun a b => a.timestamp ≤ b.timestamp)) := by
  have h := @List.sorted_mergeSort _
    (fun a b : Fusion.FusionRecord => decide (a.timestamp ≤ b.timestamp))
    (fun a b c hab hbc => by
      simp only [decide_eq_true_eq] at hab hbc ⊢
      exact le_trans hab hbc)
    (fun a b => by
      simp only [Bool.or_eq_true, decide_eq_true_eq]
      exact le_total a.timestamp b.timestamp)
    records
  refine h.imp ?_
  intro a b hab
  simpa using hab

/-- CLAIM C6 (confirmed).  In every timeline produced by
`generate_timeline`, a synthetic gap event sits between two consecutive
merged events exactly when their timestamp difference exceeds
`max_gap_hours`; each gap event has timestamp `previous + 30` minutes,
location `UNKNOWN`, activity `"gap"`, confidence `0`, the full gap as its
duration and description `"No activity detected for <formatted gap>"`;
and every output event is either one of the merged input events or such a
gap event for a consecutive pair over the threshold — gap events appear
nowhere else. -/
theorem gap_insertion_characterized (cfg : TimelineConfig)
    (describe : Fusion.FusionRecord → String) (records : List Fusion.FusionRecord)
    (start_time end_time : Option ℚ) :
    generateTimeline cfg describe records start_time end_time =
      gapSpecList cfg (mergeRelatedEvents (convertToTimelineEvents describe
        ((filterByTimeRange records start_time end_time).mergeSort
          (fun a b => a.timestamp ≤ b.timestamp)))) ∧
    (∀ (e : TimelineEvent) (gap_minutes : ℚ),
      createGapEvent e gap_minutes =
        { timestamp := e.timestamp + 30, location := "UNKNOWN", activity := "gap",
          description := "No activity detected for " ++ formatDuration gap_minutes,
          confidence := 0, sources := [], duration := some gap_minutes }) ∧
    (∀ evs : List TimelineEvent, ∀ x ∈ detectAndAnalyzeGaps cfg evs, x ∈ evs ∨
      ∃ p ∈ evs.zip evs.tail, cfg.max_gap_hours * 60 < p.2.timestamp - p.1.timestamp ∧
        x = createGapEvent p.1 (p.2.timestamp - p.1.timestamp)) := by
  refine ⟨?_, fun e g => rfl, mem_detectAndAnalyzeGaps cfg⟩
  cases hf : filterByTimeRange records start_time end_time with
  | nil =>
    simp [generateTimeline, hf, convertToTimelineEvents, mergeRelatedEvents, gapSpecList]
  | cons r rs =>
    unfold generateTimeline
    rw [hf]
    exact detectAndAnalyzeGaps_eq_gapSpecList cfg _

/-- CLAIM C8 (corrected), counterexample.  Two same-activity events within
five minutes at `LAB_101` merge into an event that keeps the first event's
own description `"d1"` — not the claimed "Multiple activities at Computer
Lab 101: …" — because the code switches on the number of DISTINCT activity
types, not on group size; and a group with four distinct activities gets
`"… a1, a2, a3 and 1 more"` with no comma before `"and"`, not the claimed
`", and 1 more"`. -/
theorem merged_description_counterexample :
    (mergeRelatedEvents [⟨0, "LAB_101", "card_swipe", "d1", 1, [], none⟩,
      ⟨1, "LAB_101", "card_swipe", "d2", 1, [], none⟩,
      ⟨100, "GYM", "a1", "f1", 1, [], none⟩, ⟨101, "GYM", "a2", "f2", 1, [], none⟩,
      ⟨102, "GYM", "a3", "f3", 1, [], none⟩,
      ⟨103, "GYM", "a4", "f4", 1, [], none⟩]).map (fun m => m.description) =
      ["d1", "Multiple activities at Gymnasium: a1, a2, a3 and 1 more"] ∧
    "d1" ≠ "Multiple activities at Computer Lab 101: card_swipe" ∧
    "Multiple activities at Gymnasium: a1, a2, a3 and 1 more" ≠
      "Multiple activities at Gymnasium: a1, a2, a3, and 1 more" := by
  refine ⟨?_, by decide, by decide⟩
  have hg : mergeGroupsAux [⟨0, "LAB_101", "card_swipe", "d1", 1, [], none⟩]
      ⟨0, "LAB_101", "card_swipe", "d1", 1, [], none⟩
      [⟨1, "LAB_101", "card_swipe", "d2", 1, [], none⟩,
       ⟨100, "GYM", "a1", "f1", 1, [], none⟩, ⟨101, "GYM", "a2", "f2", 1, [], none⟩,
       ⟨102, "GYM", "a3", "f3", 1, [], none⟩,
       ⟨103, "GYM", "a4", "f4", 1, [], none⟩] =
      [[⟨0, "LAB_101", "card_swipe", "d1", 1, [], none⟩,
        ⟨1, "LAB_101", "card_swipe", "d2", 1, [], none⟩],
       [⟨100, "GYM", "a1", "f1", 1, [], none⟩, ⟨101, "GYM", "a2", "f2", 1, [], none⟩,
        ⟨102, "GYM", "a3", "f3", 1, [], none⟩,
        ⟨103, "GYM", "a4", "f4", 1, [], none⟩]] := by
    simp +decide [mergeGroupsAux]
    norm_num
  have h1 : (createMergedEvent ([⟨0, "LAB_101", "card_swipe", "d1", 1, [], none⟩,
      ⟨1, "LAB_101", "card_swipe", "d2", 1, [], none⟩] : List TimelineEvent)).description =
      "d1" := by
    simp only [createMergedEvent]
    rw [if_pos (by simp +decide [firstDedup, firstDedupAux])]
  have h2 : (createMergedEvent ([⟨100, "GYM", "a1", "f1", 1, [], none⟩,
      ⟨101, "GYM", "a2", "f2", 1, [], none⟩, ⟨102, "GYM", "a3", "f3", 1, [], none⟩,
      ⟨103, "GYM", "a4", "f4", 1, [], none⟩] : List TimelineEvent)).description =
      "Multiple activities at Gymnasium: a1, a2, a3 and 1 more" := by
    simp only [createMergedEvent]
    rw [if_neg (by simp +decide [firstDedup, firstDedupAux])]
    simp +decide [firstDedup, firstDedupAux, argmaxBy, campusLocationName, String.intercalate]
  rw [mergeRelatedEvents, hg]
  simp only [List.map_cons, List.map_nil, h1, h2]

/-- CLAIM C8 (corrected), amended claim.  A merged group keeps the FIRST
event's own description whenever the group has exactly one distinct
activity type (in particular every singleton group, but also larger
same-activity groups); a group with two or more distinct activity types
gets "Multiple activities at <location_name>: <first three distinct
activity types>" with " and N more" (no comma) appended when there are
more than three distinct activity types. -/
theorem merged_event_description (e0 : TimelineEvent) (rest : List TimelineEvent) :
    (createMergedEvent (e0 :: rest)).description =
      if (firstDedup ((e0 :: rest).map (fun x => x.activity))).length = 1 then
        e0.description
      else
        "Multiple activities at " ++
          campusLocationName (createMergedEvent (e0 :: rest)).location ++ ": " ++
          String.intercalate ", "
            ((firstDedup ((e0 :: rest).map (fun x => x.activity))).take 3) ++
          (if 3 < (firstDedup ((e0 :: rest).map (fun x => x.activity))).length then
            " and " ++
              toString ((firstDedup ((e0 :: rest).map (fun x => x.activity))).length - 3) ++
              " more"
           else "") := by
  cases rest with
  | nil =>
    have h1 : (firstDedup [e0.activity]).length = 1 := by
      simp [firstDedup, firstDedupAux]
    simp [createMergedEvent, h1]
  | cons e1 rest2 => rfl

/-- CLAIM C10 (confirmed).  When `max_gap_hours ≥ 0.5`, the event list
returned by `generate_timeline` is in non-decreasing timestamp order, gap
events included, and each inserted gap event's timestamp (previous event
plus 30 minutes) lies strictly between the timestamps of its two
bracketing events. -/
theorem timeline_chronological (cfg : TimelineConfig)
    (describe : Fusion.FusionRecord → String) (records : List Fusion.FusionRecord)
    (start_time end_time : Option ℚ) (hgap : 1/2 ≤ cfg.max_gap_hours) :
    List.Pairwise (fun a b => a.timestamp ≤ b.timestamp)
      (generateTimeline cfg describe records start_time end_time) ∧
    ∀ a b : TimelineEvent, cfg.max_gap_hours * 60 < b.timestamp - a.timestamp →
      a.timestamp < (createGapEvent a (b.timestamp - a.timestamp)).timestamp ∧
      (createGapEvent a (b.timestamp - a.timestamp)).timestamp < b.timestamp := by
  constructor
  · cases hf : filterByTimeRange records start_time end_time with
    | nil => simp [generateTimeline, hf]
    | cons r rs =>
      unfold generateTimeline
      rw [hf]
      apply detectAndAnalyzeGaps_sorted cfg hgap
      apply mergeRelatedEvents_sorted
      rw [convertToTimelineEvents, List.pairwise_map]
      exact sortRecords_sorted (r :: rs)
  · intro a b hab
    constructor
    · simp only [createGapEvent]
      linarith
    · simp only [createGapEvent]
      linarith

/-- Witness for C10: a two-record timeline five hours apart under the
default configuration. -/
theorem timeline_chronological_witness :
    List.Pairwise (fun a b => a.timestamp ≤ b.timestamp)
      (generateTimeline TIMELINE_CONFIG (fun _ => "desc")
        [⟨"u", 0, "LAB_101", "card_swipe", 1, ["card_swipes"]⟩,
         ⟨"u", 300, "GYM", "card_swipe", 1, ["card_swipes"]⟩] none none) ∧
    ∀ a b : TimelineEvent, TIMELINE_CONFIG.max_gap_hours * 60 < b.timestamp - a.timestamp →
      a.timestamp < (createGapEvent a (b.timestamp - a.timestamp)).timestamp ∧
      (createGapEvent a (b.timestamp - a.timestamp)).timestamp < b.timestamp :=
  timeline_chronological TIMELINE_CONFIG (fun _ => "desc")
    [⟨"u", 0, "LAB_101", "card_swipe", 1, ["card_swipes"]⟩,
     ⟨"u", 300, "GYM", "card_swipe", 1, ["card_swipes"]⟩] none none
    (by norm_num [TIMELINE_CONFIG])

end Timeline

namespace Monitor

theorem checkAbsence_eq (cfg : PredictionConfig) (now : ℚ) (r0 : Fusion.FusionRecord)
    (rest : List Fusion.FusionRecord) :
    checkAbsenceAnomaly cfg now (r0 :: rest) =
      if cfg.alert_absence_hours * 60 <
          now - qMax ((r0 :: rest).map (fun r => r.timestamp)) then
        some
          { entity_id :=
              (argmaxBy (fun x : Fusion.FusionRecord => x.timestamp) r0 rest).unified_entity_id
            alert_type := "absence"
            severity :=
              if 24 * 60 < now - qMax ((r0 :: rest).map (fun r => r.timestamp))
              then "high" else "medium"
            timestamp := now }
      else none := by
  unfold checkAbsenceAnomaly
  dsimp only
  have h := argmaxBy_eq_qMax (fun x : Fusion.FusionRecord => x.timestamp) r0 rest
  simp only at h
  rw [h]

theorem behavioral_alerts_typed (behavioralScore : Fusion.FusionRecord → Option ℚ)
    (l : List Fusion.FusionRecord) (a : AnomalyAlert)
    (ha : a ∈ l.filterMap (fun r =>
      match behavioralScore r with
      | none => none
      | some s =>
        if s < -(1/2) then
          some
            { entity_id := r.unified_entity_id
              alert_type := "behavioral"
              severity := if s < -(8/10) then "high" else "medium"
              timestamp := r.timestamp }
        else none)) :
    a.alert_type = "behavioral" := by
  rcases List.mem_filterMap.mp ha with ⟨r, _, hfr⟩
  cases hb : behavioralScore r with
  | none => rw [hb] at hfr; cases hfr
  | some s =>
    rw [hb] at hfr
    dsimp only at hfr
    by_cases hs : s < -(1/2)
    · rw [if_pos hs] at hfr
      cases hfr
      rfl
    · rw [if_neg hs] at hfr
      cases hfr

/-- CLAIM C9 (corrected), counterexample.  A call to `detect_anomalies`
on an untrained monitor returns no alerts even when the most recent
record is far older than `alert_absence_hours` before now, so the claimed
"if and only if" fails for untrained monitors. -/
theorem absence_alert_counterexample :
    detectAnomalies false (fun _ => none) PREDICTION_CONFIG 10000
      [⟨"u", 0, "LAB_101", "card_swipe", 1, ["card_swipes"]⟩] = [] ∧
    PREDICTION_CONFIG.alert_absence_hours * 60 <
      10000 - qMax (([⟨"u", 0, "LAB_101", "card_swipe", 1, ["card_swipes"]⟩] :
        List Fusion.FusionRecord).map (fun r => r.timestamp)) := by
  constructor
  · simp [detectAnomalies]
  · norm_num [PREDICTION_CONFIG, qMax]

/-- CLAIM C9 (corrected), amended claim.  Provided the monitor is
trained, a call to `detect_anomalies` with a non-empty record list emits
an absence alert exactly when the most recent record's timestamp is more
than `alert_absence_hours` before wall-clock now, with severity `"high"`
when the silence exceeds 24 hours and `"medium"` otherwise; a call with
an empty record list emits nothing (and an untrained monitor emits
nothing at all, which is what the counterexample exhibits). -/
theorem absence_alert_iff (behavioralScore : Fusion.FusionRecord → Option ℚ)
    (cfg : PredictionConfig) (now : ℚ) (r0 : Fusion.FusionRecord)
    (rest : List Fusion.FusionRecord) :
    ((∃ a ∈ detectAnomalies true behavioralScore cfg now (r0 :: rest),
        a.alert_type = "absence") ↔
      cfg.alert_absence_hours * 60 <
        now - qMax ((r0 :: rest).map (fun r => r.timestamp))) ∧
    (∀ a ∈ detectAnomalies true behavioralScore cfg now (r0 :: rest),
      a.alert_type = "absence" →
        a.severity =
          if 24 * 60 < now - qMax ((r0 :: rest).map (fun r => r.timestamp))
          then "high" else "medium") ∧
    (∀ bs2 : Fusion.FusionRecord → Option ℚ,
      detectAnomalies true bs2 cfg now [] = []) := by
  have hopen : detectAnomalies true behavioralScore cfg now (r0 :: rest) =
      (match checkAbsenceAnomaly cfg now (r0 :: rest) with
       | some a => [a]
       | none => []) ++
      ((r0 :: rest).drop ((r0 :: rest).length - 10)).filterMap (fun r =>
        match behavioralScore r with
        | none => none
        | some s =>
          if s < -(1/2) then
            some
              { entity_id := r.unified_entity_id
                alert_type := "behavioral"
                severity := if s < -(8/10) then "high" else "medium"
                timestamp := r.timestamp }
          else none) := by
    rw [detectAnomalies, if_neg (by simp)]
  refine ⟨⟨?_, ?_⟩, ?_, ?_⟩
  · rintro ⟨a, ha, htype⟩
    rw [hopen] at ha
    rcases List.mem_append.mp ha with h1 | h1
    · by_contra hcond
      rw [checkAbsence_eq, if_neg hcond] at h1
      cases h1
    · rw [behavioral_alerts_typed behavioralScore _ a h1] at htype
      exact absurd htype (by decide)
  · intro hcond
    refine ⟨⟨(argmaxBy (fun x : Fusion.FusionRecord => x.timestamp) r0 rest).unified_entity_id,
      "absence",
      (if 24 * 60 < now - qMax ((r0 :: rest).map (fun r => r.timestamp))
       then "high" else "medium"),
      now⟩, ?_, rfl⟩
    rw [hopen, checkAbsence_eq, if_pos hcond]
    exact List.mem_append.mpr (Or.inl (by simp))
  · intro a ha htype
    rw [hopen] at ha
    rcases List.mem_append.mp ha with h1 | h1
    · cases hc : checkAbsenceAnomaly cfg now (r0 :: rest) with
      | none => rw [hc] at h1; cases h1
      | some a0 =>
        rw [hc] at h1
        rcases List.mem_singleton.mp h1 with rfl
        rw [checkAbsence_eq] at hc
        by_cases hcond : cfg.alert_absence_hours * 60 <
            now - qMax ((r0 :: rest).map (fun r => r.timestamp))
        · rw [if_pos hcond] at hc
          cases hc
          rfl
        · rw [if_neg hcond] at hc
          cases hc
    · rw [behavioral_alerts_typed behavioralScore _ a h1] at htype
      exact absurd htype (by decide)
  · intro bs2
    simp [detectAnomalies]

end Monitor

namespace Resolver

theorem mem_if_singleton {b : Prop} [Decidable b] {v x : ℚ}
    (hx : x ∈ (if b then [v] else [])) : b ∧ x = v := by
  by_cases h : b
  · rw [if_pos h] at hx
    exact ⟨h, List.mem_singleton.mp hx⟩
  · rw [if_neg h] at hx
    cases hx

theorem specPairConfidence_eq_qMax (nameFuzz emailFuzz : String → String → ℚ)
    (cfg : ResolutionConfig) (r1 r2 : ERecord) :
    specPairConfidence nameFuzz emailFuzz cfg r1 r2 =
      qMax (specContributions nameFuzz emailFuzz cfg r1 r2) := rfl

theorem confidenceScores_subset (nameFuzz emailFuzz : String → String → ℚ)
    (cfg : ResolutionConfig) (r1 r2 : ERecord) :
    ∀ x ∈ confidenceScores nameFuzz emailFuzz cfg r1 r2,
      x ∈ specContributions nameFuzz emailFuzz cfg r1 r2 := by
  intro x hx
  unfold confidenceScores at hx
  unfold specContributions
  simp only [List.mem_append] at hx
  rcases hx with ((((((h1 | h1) | h1) | h1) | h1) | h1) | h1)
  · obtain ⟨hb, rfl⟩ := mem_if_singleton h1
    simp [hb]
  · obtain ⟨hb, rfl⟩ := mem_if_singleton h1
    simp [hb]
  · obtain ⟨hb, rfl⟩ := mem_if_singleton h1
    simp [hb]
  · obtain ⟨_, rfl⟩ := mem_if_singleton h1
    simp
  · obtain ⟨_, rfl⟩ := mem_if_singleton h1
    simp
  · obtain ⟨_, rfl⟩ := mem_if_singleton h1
    simp
  · obtain ⟨_, rfl⟩ := mem_if_singleton h1
    simp

theorem spec_entries_cases (nameFuzz emailFuzz : String → String → ℚ) (r1 r2 : ERecord) :
    ∀ y ∈ specContributions nameFuzz emailFuzz ENTITY_RESOLUTION_CONFIG r1 r2,
      y ≤ 68/100 ∨ y ∈ confidenceScores nameFuzz emailFuzz ENTITY_RESOLUTION_CONFIG r1 r2 := by
  intro y hy
  unfold specContributions at hy
  simp only [List.mem_cons, List.not_mem_nil, or_false] at hy
  rcases hy with rfl | rfl | rfl | rfl | rfl | rfl | rfl
  · by_cases hb : checkDirectMatch r1.card_id r2.card_id
    · right
      unfold confidenceScores
      simp [hb]
    · left
      rw [if_neg hb]
      norm_num
  · by_cases hb : checkDirectMatch r1.device_hash r2.device_hash
    · right
      unfold confidenceScores
      simp [hb]
    · left
      rw [if_neg hb]
      norm_num
  · by_cases hb : checkDirectMatch r1.face_id r2.face_id
    · right
      unfold confidenceScores
      simp [hb]
    · left
      rw [if_neg hb]
      norm_num
  · by_cases hg : ENTITY_RESOLUTION_CONFIG.name_similarity_threshold <
        nameSimilarity nameFuzz r1 r2
    · right
      unfold confidenceScores
      simp [hg]
    · left
      push_neg at hg
      have hθ : ENTITY_RESOLUTION_CONFIG.name_similarity_threshold = 17/20 := rfl
      rw [hθ] at hg
      nlinarith
  · by_cases hg : (8:ℚ)/10 < emailSimilarity emailFuzz r1 r2
    · right
      unfold confidenceScores
      simp [hg]
    · left
      push_neg at hg
      nlinarith
  · by_cases hg : (1:ℚ)/2 < calculateTemporalCorrelation ENTITY_RESOLUTION_CONFIG r1 r2
    · right
      unfold confidenceScores
      rw [if_pos hg]
      simp
    · left
      push_neg at hg
      nlinarith
  · by_cases hg : (1:ℚ)/2 < calculateLocationCorrelation r1 r2
    · right
      unfold confidenceScores
      rw [if_pos hg]
      simp
    · left
      push_neg at hg
      nlinarith

/-- CLAIM C4 (confirmed).  For every pair of records compared under the
default configuration, other than pairs short-circuited by a shared
non-null `entity_id`: when a match is emitted its confidence equals the
maximum of the channel contributions (`0.95` card, `0.90` device hash,
`0.85` face, `0.8 ×` name similarity, `0.7 ×` email similarity, `0.6 ×`
temporal score, `0.5 ×` location Jaccard) — not their sum — and a match
is emitted if and only if that maximum reaches `fuzzy_match_threshold`
(default `0.80`). -/
theorem pair_confidence_max (nameFuzz emailFuzz : String → String → ℚ) (r1 r2 : ERecord)
    (hne : checkDirectMatch r1.entity_id r2.entity_id = false) :
    (∀ m, compareRecords nameFuzz emailFuzz ENTITY_RESOLUTION_CONFIG r1 r2 = some m →
      m.confidence = specPairConfidence nameFuzz emailFuzz ENTITY_RESOLUTION_CONFIG r1 r2) ∧
    ((compareRecords nameFuzz emailFuzz ENTITY_RESOLUTION_CONFIG r1 r2).isSome ↔
      (8:ℚ)/10 ≤ specPairConfidence nameFuzz emailFuzz ENTITY_RESOLUTION_CONFIG r1 r2) := by
  have hsub := confidenceScores_subset nameFuzz emailFuzz ENTITY_RESOLUTION_CONFIG r1 r2
  have hcases := spec_entries_cases nameFuzz emailFuzz r1 r2
  have hTne : specContributions nameFuzz emailFuzz ENTITY_RESOLUTION_CONFIG r1 r2 ≠ [] := by
    unfold specContributions
    simp
  have hspecmem : specPairConfidence nameFuzz emailFuzz ENTITY_RESOLUTION_CONFIG r1 r2 ∈
      specContributions nameFuzz emailFuzz ENTITY_RESOLUTION_CONFIG r1 r2 := by
    rw [specPairConfidence_eq_qMax]
    exact qMax_mem _ hTne
  unfold compareRecords
  rw [hne]
  simp only [Bool.false_eq_true, if_false]
  cases hSs : confidenceScores nameFuzz emailFuzz ENTITY_RESOLUTION_CONFIG r1 r2 with
  | nil =>
    have hsmall : specPairConfidence nameFuzz emailFuzz ENTITY_RESOLUTION_CONFIG r1 r2 ≤
        68/100 := by
      rcases hcases _ hspecmem with h | h
      · exact h
      · rw [hSs] at h
        cases h
    constructor
    · intro m hm
      cases hm
    · constructor
      · intro h
        simp at h
      · intro h
        exfalso
        have : (8:ℚ)/10 ≤ 68/100 := le_trans h hsmall
        norm_num at this
  | cons s srest =>
    have hle : qMax (s :: srest) ≤
        specPairConfidence nameFuzz emailFuzz ENTITY_RESOLUTION_CONFIG r1 r2 := by
      rw [specPairConfidence_eq_qMax]
      refine qMax_ge_of_mem _ _ ?_
      refine hsub _ ?_
      rw [hSs]
      exact qMax_mem (s :: srest) (by simp)
    have hger : specPairConfidence nameFuzz emailFuzz ENTITY_RESOLUTION_CONFIG r1 r2 ≤ 68/100 ∨
        specPairConfidence nameFuzz emailFuzz ENTITY_RESOLUTION_CONFIG r1 r2 ≤
          qMax (s :: srest) := by
      rcases hcases _ hspecmem with h | h
      · exact Or.inl h
      · rw [hSs] at h
        exact Or.inr (qMax_ge_of_mem _ _ h)
    have hkey : (8:ℚ)/10 ≤ qMax (s :: srest) ↔
        (8:ℚ)/10 ≤ specPairConfidence nameFuzz emailFuzz ENTITY_RESOLUTION_CONFIG r1 r2 := by
      constructor
      · intro h
        exact le_trans h hle
      · intro h
        rcases hger with h2 | h2
        · exfalso
          have : (8:ℚ)/10 ≤ 68/100 := le_trans h h2
          norm_num at this
        · exact le_trans h h2
    have hθ : ENTITY_RESOLUTION_CONFIG.fuzzy_match_threshold = (8:ℚ)/10 := rfl
    constructor
    · intro m hm
      rw [hθ] at hm
      dsimp only at hm
      by_cases hc : (8:ℚ)/10 ≤ qMax (s :: srest)
      · rw [if_pos hc] at hm
        cases hm
        show qMax (s :: srest) = _
        refine le_antisymm hle ?_
        rcases hger with h2 | h2
        · exfalso
          have := le_trans (le_trans hc hle) h2
          norm_num at this
        · exact h2
      · rw [if_neg hc] at hm
        cases hm
    · rw [hθ]
      dsimp only
      by_cases hc : (8:ℚ)/10 ≤ qMax (s :: srest)
      · rw [if_pos hc]
        simp only [Option.isSome_some, true_iff]
        exact hkey.mp hc
      · rw [if_neg hc]
        simp only [Option.isSome_none, Bool.false_eq_true, false_iff]
        intro h
        exact hc (hkey.mpr h)

theorem sameCluster_addEdge (cs : List (List String)) (n : EntityMatch) (x y : String)
    (h : ∃ c ∈ cs, x ∈ c ∧ y ∈ c) : ∃ c ∈ addEdge cs n, x ∈ c ∧ y ∈ c := by
  obtain ⟨c, hc, hx, hy⟩ := h
  by_cases ht : n.source_id ∈ c ∨ n.target_id ∈ c
  · refine ⟨_, List.mem_cons_self _ _, ?_, ?_⟩
    · refine List.mem_cons.mpr (Or.inr (List.mem_cons.mpr (Or.inr ?_)))
      exact List.mem_flatten.mpr ⟨c, List.mem_filter.mpr ⟨hc, by simpa using ht⟩, hx⟩
    · refine List.mem_cons.mpr (Or.inr (List.mem_cons.mpr (Or.inr ?_)))
      exact List.mem_flatten.mpr ⟨c, List.mem_filter.mpr ⟨hc, by simpa using ht⟩, hy⟩
  · refine ⟨c, ?_, hx, hy⟩
    exact List.mem_cons.mpr (Or.inr (List.mem_filter.mpr ⟨hc, by simpa using ht⟩))

theorem sameCluster_foldl (ms : List EntityMatch) :
    ∀ (cs : List (List String)) (x y : String), (∃ c ∈ cs, x ∈ c ∧ y ∈ c) →
      ∃ c ∈ ms.foldl addEdge cs, x ∈ c ∧ y ∈ c := by
  induction ms with
  | nil => intro cs x y h; exact h
  | cons n ms2 ih =>
    intro cs x y h
    exact ih (addEdge cs n) x y (sameCluster_addEdge cs n x y h)

theorem endpoints_in_foldl (ms : List EntityMatch) :
    ∀ (cs : List (List String)) (m : EntityMatch), m ∈ ms →
      ∃ c ∈ ms.foldl addEdge cs, m.source_id ∈ c ∧ m.target_id ∈ c := by
  induction ms with
  | nil => intro cs m hm; cases hm
  | cons n ms2 ih =>
    intro cs m hm
    rcases List.mem_cons.mp hm with h1 | h1
    · subst h1
      refine sameCluster_foldl ms2 (addEdge cs m) _ _ ?_
      exact ⟨_, List.mem_cons_self _ _, by simp, by simp⟩
    · exact ih (addEdge cs n) m h1

theorem mem_addEdge_cases (cs : List (List String)) (n : EntityMatch) (c : List String)
    (hc : c ∈ addEdge cs n) (x : String) (hx : x ∈ c) :
    (∃ c0 ∈ cs, x ∈ c0) ∨ x = n.source_id ∨ x = n.target_id := by
  rcases List.mem_cons.mp hc with h1 | h1
  · subst h1
    rcases List.mem_cons.mp hx with h2 | h2
    · exact Or.inr (Or.inl h2)
    rcases List.mem_cons.mp h2 with h3 | h3
    · exact Or.inr (Or.inr h3)
    · obtain ⟨c0, hc0, hxc0⟩ := List.mem_flatten.mp h3
      exact Or.inl ⟨c0, (List.mem_filter.mp hc0).1, hxc0⟩
  · exact Or.inl ⟨c, (List.mem_filter.mp h1).1, hx⟩

theorem mem_foldl_addEdge (ms : List EntityMatch) :
    ∀ (cs : List (List String)) (c : List String), c ∈ ms.foldl addEdge cs →
      ∀ x ∈ c, (∃ c0 ∈ cs, x ∈ c0) ∨
        ∃ m ∈ ms, x = m.source_id ∨ x = m.target_id := by
  induction ms with
  | nil =>
    intro cs c hc x hx
    exact Or.inl ⟨c, hc, hx⟩
  | cons n ms2 ih =>
    intro cs c hc x hx
    rcases ih (addEdge cs n) c hc x hx with h1 | ⟨m, hm, h2⟩
    · obtain ⟨c0, hc0, hxc0⟩ := h1
      rcases mem_addEdge_cases cs n c0 hc0 x hxc0 with h2 | h2
      · exact Or.inl h2
      · exact Or.inr ⟨n, List.mem_cons_self _ _, h2⟩
    · exact Or.inr ⟨m, List.mem_cons.mpr (Or.inr hm), h2⟩

theorem addEdge_disjoint (cs : List (List String)) (n : EntityMatch)
    (h : List.Pairwise (fun c d => ∀ x : String, x ∈ c → x ∈ d → False) cs) :
    List.Pairwise (fun c d => ∀ x : String, x ∈ c → x ∈ d → False) (addEdge cs n) := by
  have hsymm : Symmetric (fun c d : List String => ∀ x : String, x ∈ c → x ∈ d → False) :=
    fun c d hcd x hx hy => hcd x hy hx
  unfold addEdge
  rw [List.pairwise_cons]
  constructor
  · intro d hd x hx hxd
    have hdns : ¬(n.source_id ∈ d ∨ n.target_id ∈ d) := by
      have := (List.mem_filter.mp hd).2
      simpa using this
    have hdcs : d ∈ cs := (List.mem_filter.mp hd).1
    rcases List.mem_cons.mp hx with h1 | h1
    · exact hdns (Or.inl (h1 ▸ hxd))
    rcases List.mem_cons.mp h1 with h2 | h2
    · exact hdns (Or.inr (h2 ▸ hxd))
    · obtain ⟨c0, hc0, hxc0⟩ := List.mem_flatten.mp h2
      have hc0t : n.source_id ∈ c0 ∨ n.target_id ∈ c0 := by
        have := (List.mem_filter.mp hc0).2
        simpa using this
      have hc0cs : c0 ∈ cs := (List.mem_filter.mp hc0).1
      have hne : c0 ≠ d := by
        intro heq
        exact hdns (heq ▸ hc0t)
      exact h.forall hsymm hc0cs hdcs hne x hxc0 hxd
  · exact List.Pairwise.sublist (List.filter_sublist cs) h

theorem foldl_addEdge_disjoint (ms : List EntityMatch) :
    ∀ cs : List (List String),
      List.Pairwise (fun c d => ∀ x : String, x ∈ c → x ∈ d → False) cs →
      List.Pairwise (fun c d => ∀ x : String, x ∈ c → x ∈ d → False) (ms.foldl addEdge cs) := by
  induction ms with
  | nil => intro cs h; exact h
  | cons n ms2 ih => intro cs h; exact ih (addEdge cs n) (addEdge_disjoint cs n h)

theorem buildClusters_disjoint (ms : List EntityMatch) :
    List.Pairwise (fun c d => ∀ x : String, x ∈ c → x ∈ d → False) (buildClusters ms) :=
  foldl_addEdge_disjoint ms [] List.Pairwise.nil

theorem buildClusters_unique (ms : List EntityMatch) (c d : List String)
    (hc : c ∈ buildClusters ms) (hd : d ∈ buildClusters ms) (x : String)
    (hxc : x ∈ c) (hxd : x ∈ d) : c = d := by
  by_contra hne
  have hsymm : Symmetric (fun c d : List String => ∀ x : String, x ∈ c → x ∈ d → False) :=
    fun c d hcd x hx hy => hcd x hy hx
  exact (buildClusters_disjoint ms).forall hsymm hc hd hne x hxc hxd

theorem cluster_has_edge (ms : List EntityMatch) :
    ∀ c ∈ buildClusters ms, ∃ m ∈ ms, m.source_id ∈ c ∧ m.target_id ∈ c := by
  suffices h : ∀ (ms2 all : List EntityMatch) (cs : List (List String)),
      (∀ c ∈ cs, ∃ m ∈ all, m.source_id ∈ c ∧ m.target_id ∈ c) →
      (∀ m ∈ ms2, m ∈ all) →
      ∀ c ∈ ms2.foldl addEdge cs, ∃ m ∈ all, m.source_id ∈ c ∧ m.target_id ∈ c by
    intro c hc
    exact h ms ms [] (by intro c0 hc0; cases hc0) (fun m hm => hm) c hc
  intro ms2
  induction ms2 with
  | nil =>
    intro all cs hinv _ c hc
    exact hinv c hc
  | cons n ms3 ih =>
    intro all cs hinv hsub c hc
    refine ih all (addEdge cs n) ?_ (fun m hm => hsub m (List.mem_cons.mpr (Or.inr hm))) c hc
    intro c0 hc0
    rcases List.mem_cons.mp hc0 with h1 | h1
    · subst h1
      exact ⟨n, hsub n (List.mem_cons_self _ _), by simp, by simp⟩
    · exact hinv c0 (List.mem_filter.mp h1).1

theorem mem_findEntityMatches (nameFuzz emailFuzz : String → String → ℚ)
    (cfg : ResolutionConfig) (rs : List ERecord) (m : EntityMatch)
    (hm : m ∈ findEntityMatches nameFuzz emailFuzz cfg rs) :
    cfg.fuzzy_match_threshold ≤ m.confidence ∧
    ∃ p ∈ allPairs (rs.take 1000), compareRecords nameFuzz emailFuzz cfg p.1 p.2 = some m := by
  obtain ⟨p, hp, heq⟩ := List.mem_filterMap.mp hm
  cases hcmp : compareRecords nameFuzz emailFuzz cfg p.1 p.2 with
  | none => rw [hcmp] at heq; cases heq
  | some m0 =>
    rw [hcmp] at heq
    dsimp only at heq
    by_cases hθ : cfg.fuzzy_match_threshold ≤ m0.confidence
    · rw [if_pos hθ] at heq
      cases heq
      exact ⟨hθ, p, hp, hcmp⟩
    · rw [if_neg hθ] at heq
      cases heq

theorem compareRecords_ids (nameFuzz emailFuzz : String → String → ℚ)
    (cfg : ResolutionConfig) (r1 r2 : ERecord) (m : EntityMatch)
    (h : compareRecords nameFuzz emailFuzz cfg r1 r2 = some m) :
    m.source_id = r1.record_id ∧ m.target_id = r2.record_id := by
  unfold compareRecords at h
  by_cases he : checkDirectMatch r1.entity_id r2.entity_id
  · rw [if_pos he] at h
    cases h
    exact ⟨rfl, rfl⟩
  · rw [if_neg he] at h
    cases hS : confidenceScores nameFuzz emailFuzz cfg r1 r2 with
    | nil => rw [hS] at h; cases h
    | cons s srest =>
      rw [hS] at h
      dsimp only at h
      by_cases hθ : cfg.fuzzy_match_threshold ≤ qMax (s :: srest)
      · rw [if_pos hθ] at h
        cases h
        exact ⟨rfl, rfl⟩
      · rw [if_neg hθ] at h
        cases h

theorem allPairs_mem {α : Type} (l : List α) :
    ∀ p ∈ allPairs l, p.1 ∈ l ∧ p.2 ∈ l := by
  induction l with
  | nil => intro p hp; cases hp
  | cons x xs ih =>
    intro p hp
    rcases List.mem_append.mp hp with h1 | h1
    · obtain ⟨y, hy, hyp⟩ := List.mem_map.mp h1
      rw [← hyp]
      exact ⟨List.mem_cons_self _ _, List.mem_cons.mpr (Or.inr hy)⟩
    · have := ih p h1
      exact ⟨List.mem_cons.mpr (Or.inr this.1), List.mem_cons.mpr (Or.inr this.2)⟩

theorem allPairs_complete {α : Type} (a b : α) (l : List α)
    (ha : a ∈ l) (hb : b ∈ l) (hne : a ≠ b) :
    (a, b) ∈ allPairs l ∨ (b, a) ∈ allPairs l := by
  induction l with
  | nil => cases ha
  | cons x xs ih =>
    rcases List.mem_cons.mp ha with hax | hax
    · have hbx : b ∈ xs := by
        rcases List.mem_cons.mp hb with h1 | h1
        · exact absurd (hax.trans h1.symm) hne
        · exact h1
      left
      refine List.mem_append.mpr (Or.inl ?_)
      exact List.mem_map.mpr ⟨b, hbx, by rw [hax]⟩
    · rcases List.mem_cons.mp hb with hbx | hbx
      · right
        refine List.mem_append.mpr (Or.inl ?_)
        exact List.mem_map.mpr ⟨a, hax, by rw [hbx]⟩
      · rcases ih hax hbx with h1 | h1
        · exact Or.inl (List.mem_append.mpr (Or.inr h1))
        · exact Or.inr (List.mem_append.mpr (Or.inr h1))

theorem lookupRecord_mem (rs : List ERecord) (rid : String) (r : ERecord)
    (h : lookupRecord rs rid = some r) : r ∈ rs ∧ r.record_id = rid := by
  refine ⟨List.mem_of_find?_eq_some h, ?_⟩
  have := List.find?_some h
  simpa using this

theorem lookupRecord_found (rs : List ERecord)
    (hnd : (rs.map (fun r => r.record_id)).Nodup) (r : ERecord) (hr : r ∈ rs) :
    lookupRecord rs r.record_id = some r := by
  induction rs with
  | nil => cases hr
  | cons x xs ih =>
    rcases List.mem_cons.mp hr with h1 | h1
    · subst h1
      unfold lookupRecord
      rw [List.find?_cons_of_pos _ (by simp)]
    · by_cases hx : x.record_id = r.record_id
      · exfalso
        have hnotin : x.record_id ∉ xs.map (fun q => q.record_id) :=
          (List.nodup_cons.mp (by simpa using hnd)).1
        exact hnotin (hx ▸ List.mem_map.mpr ⟨r, h1, rfl⟩)
      · unfold lookupRecord
        rw [List.find?_cons_of_neg _ (by simp [hx])]
        exact ih (List.nodup_cons.mp (by simpa using hnd)).2 h1

theorem compareRecords_shared_direct (nameFuzz emailFuzz : String → String → ℚ)
    (cfg : ResolutionConfig) (hθ : cfg.fuzzy_match_threshold ≤ 17/20) (r1 r2 : ERecord)
    (h : checkDirectMatch r1.card_id r2.card_id = true ∨
      checkDirectMatch r1.device_hash r2.device_hash = true ∨
      checkDirectMatch r1.face_id r2.face_id = true) :
    ∃ m, compareRecords nameFuzz emailFuzz cfg r1 r2 = some m ∧
      cfg.fuzzy_match_threshold ≤ m.confidence := by
  unfold compareRecords
  by_cases he : checkDirectMatch r1.entity_id r2.entity_id
  · rw [if_pos he]
    exact ⟨_, rfl, le_trans hθ (by norm_num)⟩
  · rw [if_neg he]
    have hv : ∃ v ∈ confidenceScores nameFuzz emailFuzz cfg r1 r2, (85:ℚ)/100 ≤ v := by
      rcases h with h | h | h
      · refine ⟨95/100, ?_, by norm_num⟩
        unfold confidenceScores
        simp [h]
      · refine ⟨90/100, ?_, by norm_num⟩
        unfold confidenceScores
        simp [h]
      · refine ⟨85/100, ?_, by norm_num⟩
        unfold confidenceScores
        simp [h]
    obtain ⟨v, hvmem, hv85⟩ := hv
    cases hS : confidenceScores nameFuzz emailFuzz cfg r1 r2 with
    | nil => rw [hS] at hvmem; cases hvmem
    | cons s srest =>
      rw [hS] at hvmem
      have hq : cfg.fuzzy_match_threshold ≤ qMax (s :: srest) := by
        have h1 : (17:ℚ)/20 ≤ v := le_trans (by norm_num) hv85
        exact le_trans (le_trans hθ h1) (qMax_ge_of_mem _ v hvmem)
      dsimp only
      rw [if_pos hq]
      exact ⟨_, rfl, hq⟩

theorem clusterEntities_subset (cfg : ResolutionConfig) (ms : List EntityMatch) :
    ∀ c ∈ clusterEntities cfg ms, c ∈ buildClusters ms := by
  intro c hc
  exact (List.mem_filter.mp hc).1

theorem clusterEntities_disjoint (cfg : ResolutionConfig) (ms : List EntityMatch) :
    List.Pairwise (fun c d => ∀ x : String, x ∈ c → x ∈ d → False)
      (clusterEntities cfg ms) :=
  List.Pairwise.sublist (List.filter_sublist _) (buildClusters_disjoint ms)

theorem clusterEntities_eq_buildClusters (cfg : ResolutionConfig) (ms : List EntityMatch)
    (hconf : ∀ m ∈ ms, cfg.fuzzy_match_threshold ≤ m.confidence) :
    clusterEntities cfg ms = buildClusters ms := by
  unfold clusterEntities
  rw [List.filter_eq_self]
  intro c hc
  by_cases hlen : 1 < (firstDedup c).length
  · rw [if_pos hlen]
    obtain ⟨m, hm, hms, hmt⟩ := cluster_has_edge ms c hc
    have hne : clusterEdgeWeights ms c ≠ [] := by
      unfold clusterEdgeWeights
      intro hnil
      have : m.confidence ∈ (ms.filter
          (fun m => m.source_id ∈ c ∧ m.target_id ∈ c)).map (fun m => m.confidence) :=
        List.mem_map.mpr ⟨m, List.mem_filter.mpr ⟨hm, by simp [hms, hmt]⟩, rfl⟩
      rw [hnil] at this
      cases this
    have hmean : cfg.fuzzy_match_threshold ≤ mean (clusterEdgeWeights ms c) := by
      refine mean_ge _ _ hne ?_
      intro w hw
      obtain ⟨m2, hm2, hw2⟩ := List.mem_map.mp hw
      rw [← hw2]
      exact hconf m2 (List.mem_filter.mp hm2).1
    simp [hne, hmean]
  · rw [if_neg hlen]

/-- Witness for C4: a concrete pair sharing a card id, no shared
entity_id; the emitted confidence `0.95` equals the spec maximum. -/
theorem pair_confidence_max_witness :
    (∀ m, compareRecords (fun _ _ => 0) (fun a b => if a = b then 1 else 0)
        ENTITY_RESOLUTION_CONFIG
        { record_id := "profile_E1", dataset := "profiles", entity_id := some "E1",
          email := "x@y", card_id := some "c1" }
        { record_id := "card_c1", dataset := "card_swipes", card_id := some "c1",
          times := [0, 10], locations := ["LAB_101"] } = some m →
      m.confidence = specPairConfidence (fun _ _ => 0) (fun a b => if a = b then 1 else 0)
        ENTITY_RESOLUTION_CONFIG
        { record_id := "profile_E1", dataset := "profiles", entity_id := some "E1",
          email := "x@y", card_id := some "c1" }
        { record_id := "card_c1", dataset := "card_swipes", card_id := some "c1",
          times := [0, 10], locations := ["LAB_101"] }) ∧
    ((compareRecords (fun _ _ => 0) (fun a b => if a = b then 1 else 0)
        ENTITY_RESOLUTION_CONFIG
        { record_id := "profile_E1", dataset := "profiles", entity_id := some "E1",
          email := "x@y", card_id := some "c1" }
        { record_id := "card_c1", dataset := "card_swipes", card_id := some "c1",
          times := [0, 10], locations := ["LAB_101"] }).isSome ↔
      (8:ℚ)/10 ≤ specPairConfidence (fun _ _ => 0) (fun a b => if a = b then 1 else 0)
        ENTITY_RESOLUTION_CONFIG
        { record_id := "profile_E1", dataset := "profiles", entity_id := some "E1",
          email := "x@y", card_id := some "c1" }
        { record_id := "card_c1", dataset := "card_swipes", card_id := some "c1",
          times := [0, 10], locations := ["LAB_101"] }) :=
  pair_confidence_max (fun _ _ => 0) (fun a b => if a = b then 1 else 0)
    { record_id := "profile_E1", dataset := "profiles", entity_id := some "E1",
      email := "x@y", card_id := some "c1" }
    { record_id := "card_c1", dataset := "card_swipes", card_id := some "c1",
      times := [0, 10], locations := ["LAB_101"] }
    (by rfl)


/-- Lifting a pairwise relation on a list to a pairwise relation on its
index-aware image. -/
theorem pairwise_mapIdx {α β : Type} (R : β → β → Prop) (S : α → α → Prop)
    (l : List α) (f : ℕ → α → β)
    (hf : ∀ i j a b, S a b → R (f i a) (f j b))
    (h : List.Pairwise S l) : List.Pairwise R (l.mapIdx f) := by
  induction l generalizing f with
  | nil => exact List.Pairwise.nil
  | cons a l2 ih =>
    rw [List.mapIdx_cons, List.pairwise_cons]
    rw [List.pairwise_cons] at h
    refine ⟨?_, ih (fun i b => f (i + 1) b)
      (fun i j a2 b2 hab => hf (i + 1) (j + 1) a2 b2 hab) h.2⟩
    intro b hb
    obtain ⟨i, hi, heq⟩ := List.exists_of_mem_mapIdx hb
    rw [← heq]
    exact hf 0 (i + 1) a _ (h.1 _ (l2.getElem_mem hi))

/-- Python truthiness: a truthy extraction pins the underlying optional
value. -/
theorem truthy_eq_some {o : Option String} {x : String} (h : truthy o = some x) :
    o = some x := by
  cases o with
  | none => cases h
  | some s =>
    unfold truthy at h
    dsimp only at h
    by_cases hs : s = ""
    · rw [if_pos hs] at h
      cases h
    · rw [if_neg hs] at h
      exact h

/-- Every collected identifier is the truthy field value of a record
looked up from some cluster member. -/
theorem mem_collectIds {recs : List ERecord} {c : List String}
    {f : ERecord → Option String} {x : String} (h : x ∈ collectIds recs c f) :
    ∃ rid ∈ c, ∃ r, lookupRecord recs rid = some r ∧ truthy (f r) = some x := by
  unfold collectIds at h
  rw [mem_firstDedup] at h
  obtain ⟨rid, hrid, heq⟩ := List.mem_filterMap.mp h
  rw [mem_firstDedup] at hrid
  cases hl : lookupRecord recs rid with
  | none =>
    rw [hl] at heq
    cases heq
  | some r =>
    rw [hl] at heq
    exact ⟨rid, hrid, r, hl, heq⟩

/-- Every member of a connected component of the match graph is the
record id of a record among the first 1000 (the only records the
quadratic matching loop ever touches). -/
theorem cluster_member_record (nameFuzz emailFuzz : String → String → ℚ)
    (cfg : ResolutionConfig) (recs : List ERecord) (c : List String)
    (hc : c ∈ buildClusters (findEntityMatches nameFuzz emailFuzz cfg recs))
    (rid : String) (hrid : rid ∈ c) :
    ∃ r ∈ recs.take 1000, r.record_id = rid := by
  unfold buildClusters at hc
  rcases mem_foldl_addEdge _ _ c hc rid hrid with ⟨c0, hc0, _⟩ | ⟨m, hm, hend⟩
  · cases hc0
  · obtain ⟨_, p, hp, hcmp⟩ := mem_findEntityMatches nameFuzz emailFuzz cfg recs m hm
    obtain ⟨hs, ht⟩ := compareRecords_ids nameFuzz emailFuzz cfg p.1 p.2 m hcmp
    have hpm := allPairs_mem _ p hp
    rcases hend with h | h
    · exact ⟨p.1, hpm.1, by rw [← hs, ← h]⟩
    · exact ⟨p.2, hpm.2, by rw [← ht, ← h]⟩

/-- A compared pair whose confidence reaches the threshold is kept by
`_find_entity_matches`. -/
theorem findEntityMatches_of_compare (nameFuzz emailFuzz : String → String → ℚ)
    (cfg : ResolutionConfig) (recs : List ERecord) (p : ERecord × ERecord)
    (m : EntityMatch) (hp : p ∈ allPairs (recs.take 1000))
    (hcmp : compareRecords nameFuzz emailFuzz cfg p.1 p.2 = some m)
    (hconf : cfg.fuzzy_match_threshold ≤ m.confidence) :
    m ∈ findEntityMatches nameFuzz emailFuzz cfg recs := by
  unfold findEntityMatches
  refine List.mem_filterMap.mpr ⟨p, hp, ?_⟩
  rw [hcmp]
  dsimp only
  rw [if_pos hconf]

/-- A shared matched value on any of the four direct channels
(entity_id short circuit, card, device, face) forces a match whose
confidence reaches any threshold at most `0.85`. -/
theorem compareRecords_shared_channel (nameFuzz emailFuzz : String → String → ℚ)
    (cfg : ResolutionConfig) (hθ : cfg.fuzzy_match_threshold ≤ 17/20)
    (r1 r2 : ERecord)
    (h : checkDirectMatch r1.entity_id r2.entity_id = true ∨
      checkDirectMatch r1.card_id r2.card_id = true ∨
      checkDirectMatch r1.device_hash r2.device_hash = true ∨
      checkDirectMatch r1.face_id r2.face_id = true) :
    ∃ m, compareRecords nameFuzz emailFuzz cfg r1 r2 = some m ∧
      cfg.fuzzy_match_threshold ≤ m.confidence := by
  rcases h with h | h
  · unfold compareRecords
    rw [if_pos h]
    exact ⟨_, rfl, le_trans hθ (by norm_num)⟩
  · exact compareRecords_shared_direct nameFuzz emailFuzz cfg hθ r1 r2 h

/-- Agreeing present values always pass `_check_direct_match`. -/
theorem checkDirectMatch_some (x : String) :
    checkDirectMatch (some x) (some x) = true := by
  simp [checkDirectMatch]

/-- Core of the identifier-disjointness invariant: two clusters whose
collected identifier sets (for a field feeding one of the four direct
channels) share a value are the same cluster, because the two carrying
records are compared and matched at `≥ 0.85 ≥ threshold`, putting them
in one connected component. -/
theorem shared_id_same_cluster (nameFuzz emailFuzz : String → String → ℚ)
    (cfg : ResolutionConfig) (recs : List ERecord)
    (hθ : cfg.fuzzy_match_threshold ≤ 17/20)
    (hnd : (recs.map (fun r => r.record_id)).Nodup)
    (f : ERecord → Option String)
    (hchan : ∀ r1 r2 : ERecord,
      checkDirectMatch (f r1) (f r2) = true →
      checkDirectMatch r1.entity_id r2.entity_id = true ∨
      checkDirectMatch r1.card_id r2.card_id = true ∨
      checkDirectMatch r1.device_hash r2.device_hash = true ∨
      checkDirectMatch r1.face_id r2.face_id = true)
    (c1 c2 : List String)
    (hc1 : c1 ∈ buildClusters (findEntityMatches nameFuzz emailFuzz cfg recs))
    (hc2 : c2 ∈ buildClusters (findEntityMatches nameFuzz emailFuzz cfg recs))
    (x : String)
    (hx1 : x ∈ collectIds recs c1 f) (hx2 : x ∈ collectIds recs c2 f) :
    c1 = c2 := by
  obtain ⟨rid1, hrid1, r1, hl1, ht1⟩ := mem_collectIds hx1
  obtain ⟨rid2, hrid2, r2, hl2, ht2⟩ := mem_collectIds hx2
  by_cases hr : rid1 = rid2
  · exact buildClusters_unique _ c1 c2 hc1 hc2 rid1 hrid1 (hr ▸ hrid2)
  obtain ⟨hm1, hid1⟩ := lookupRecord_mem recs rid1 r1 hl1
  obtain ⟨hm2, hid2⟩ := lookupRecord_mem recs rid2 r2 hl2
  obtain ⟨r1t, hr1t, hr1id⟩ :=
    cluster_member_record nameFuzz emailFuzz cfg recs c1 hc1 rid1 hrid1
  obtain ⟨r2t, hr2t, hr2id⟩ :=
    cluster_member_record nameFuzz emailFuzz cfg recs c2 hc2 rid2 hrid2
  have hr1m : r1t ∈ recs := List.mem_of_mem_take hr1t
  have hr2m : r2t ∈ recs := List.mem_of_mem_take hr2t
  have he1 : r1t = r1 := by
    have hfound := lookupRecord_found recs hnd r1t hr1m
    rw [hr1id, hl1] at hfound
    exact (Option.some.inj hfound).symm
  have he2 : r2t = r2 := by
    have hfound := lookupRecord_found recs hnd r2t hr2m
    rw [hr2id, hl2] at hfound
    exact (Option.some.inj hfound).symm
  have hne : r1t ≠ r2t := by
    intro hcon
    apply hr
    rw [← hr1id, ← hr2id, hcon]
  have hshared : checkDirectMatch (f r1t) (f r2t) = true := by
    rw [he1, he2, truthy_eq_some ht1, truthy_eq_some ht2]
    exact checkDirectMatch_some x
  have hshared2 : checkDirectMatch (f r2t) (f r1t) = true := by
    rw [he1, he2, truthy_eq_some ht1, truthy_eq_some ht2]
    exact checkDirectMatch_some x
  have hedge : ∃ m ∈ findEntityMatches nameFuzz emailFuzz cfg recs,
      (m.source_id = rid1 ∧ m.target_id = rid2) ∨
      (m.source_id = rid2 ∧ m.target_id = rid1) := by
    rcases allPairs_complete r1t r2t (recs.take 1000) hr1t hr2t hne with hpair | hpair
    · obtain ⟨m, hcmp, hconf⟩ := compareRecords_shared_channel nameFuzz emailFuzz cfg hθ
        r1t r2t (hchan r1t r2t hshared)
      refine ⟨m, findEntityMatches_of_compare nameFuzz emailFuzz cfg recs (r1t, r2t) m
        hpair hcmp hconf, ?_⟩
      obtain ⟨hs, ht⟩ := compareRecords_ids nameFuzz emailFuzz cfg r1t r2t m hcmp
      exact Or.inl ⟨hs.trans hr1id, ht.trans hr2id⟩
    · obtain ⟨m, hcmp, hconf⟩ := compareRecords_shared_channel nameFuzz emailFuzz cfg hθ
        r2t r1t (hchan r2t r1t hshared2)
      refine ⟨m, findEntityMatches_of_compare nameFuzz emailFuzz cfg recs (r2t, r1t) m
        hpair hcmp hconf, ?_⟩
      obtain ⟨hs, ht⟩ := compareRecords_ids nameFuzz emailFuzz cfg r2t r1t m hcmp
      exact Or.inr ⟨hs.trans hr2id, ht.trans hr1id⟩
  obtain ⟨m, hm, hends⟩ := hedge
  obtain ⟨ce, hce, hsrc, htgt⟩ :=
    endpoints_in_foldl (findEntityMatches nameFuzz emailFuzz cfg recs) [] m hm
  have hceb : ce ∈ buildClusters (findEntityMatches nameFuzz emailFuzz cfg recs) := hce
  rcases hends with ⟨h1, h2⟩ | ⟨h1, h2⟩
  · have e1 : c1 = ce := buildClusters_unique _ c1 ce hc1 hceb rid1 hrid1 (h1 ▸ hsrc)
    have e2 : c2 = ce := buildClusters_unique _ c2 ce hc2 hceb rid2 hrid2 (h2 ▸ htgt)
    rw [e1, e2]
  · have e1 : c1 = ce := buildClusters_unique _ c1 ce hc1 hceb rid1 hrid1 (h2 ▸ htgt)
    have e2 : c2 = ce := buildClusters_unique _ c2 ce hc2 hceb rid2 hrid2 (h1 ▸ hsrc)
    rw [e1, e2]

/-- The fixture run of `_find_entity_matches`: the two card-sharing
pairs match at confidence `0.95`; the email-sharing profile pair does
NOT match (the email channel is capped at `0.7 < 0.8`). -/
theorem resolver_matches_example :
    findEntityMatches zeroFuzz eqFuzz ENTITY_RESOLUTION_CONFIG [A1, B1, C1r, D1] =
      [mAC, mBD] := by
  have htake : ([A1, B1, C1r, D1] : List ERecord).take 1000 = [A1, B1, C1r, D1] :=
    List.take_of_length_le (by norm_num)
  have hAB : compareRecords zeroFuzz eqFuzz ENTITY_RESOLUTION_CONFIG A1 B1 = none := by
    norm_num +decide [compareRecords, confidenceScores, checkDirectMatch, nameSimilarity,
      emailSimilarity, calculateTemporalCorrelation, calculateLocationCorrelation,
      pyStripLower, pyLowerChar, ENTITY_RESOLUTION_CONFIG, qMax, zeroFuzz, eqFuzz, A1, B1]
  have hAC : compareRecords zeroFuzz eqFuzz ENTITY_RESOLUTION_CONFIG A1 C1r = some mAC := by
    norm_num +decide [compareRecords, confidenceScores, checkDirectMatch, nameSimilarity,
      emailSimilarity, calculateTemporalCorrelation, calculateLocationCorrelation,
      pyStripLower, pyLowerChar, ENTITY_RESOLUTION_CONFIG, qMax, zeroFuzz, eqFuzz, A1, C1r,
      mAC]
  have hAD : compareRecords zeroFuzz eqFuzz ENTITY_RESOLUTION_CONFIG A1 D1 = none := by
    norm_num +decide [compareRecords, confidenceScores, checkDirectMatch, nameSimilarity,
      emailSimilarity, calculateTemporalCorrelation, calculateLocationCorrelation,
      pyStripLower, pyLowerChar, ENTITY_RESOLUTION_CONFIG, qMax, zeroFuzz, eqFuzz, A1, D1]
  have hBC : compareRecords zeroFuzz eqFuzz ENTITY_RESOLUTION_CONFIG B1 C1r = none := by
    norm_num +decide [compareRecords, confidenceScores, checkDirectMatch, nameSimilarity,
      emailSimilarity, calculateTemporalCorrelation, calculateLocationCorrelation,
      pyStripLower, pyLowerChar, ENTITY_RESOLUTION_CONFIG, qMax, zeroFuzz, eqFuzz, B1, C1r]
  have hBD : compareRecords zeroFuzz eqFuzz ENTITY_RESOLUTION_CONFIG B1 D1 = some mBD := by
    norm_num +decide [compareRecords, confidenceScores, checkDirectMatch, nameSimilarity,
      emailSimilarity, calculateTemporalCorrelation, calculateLocationCorrelation,
      pyStripLower, pyLowerChar, ENTITY_RESOLUTION_CONFIG, qMax, zeroFuzz, eqFuzz, B1, D1,
      mBD]
  have hCD : compareRecords zeroFuzz eqFuzz ENTITY_RESOLUTION_CONFIG C1r D1 = none := by
    norm_num +decide [compareRecords, confidenceScores, checkDirectMatch, nameSimilarity,
      emailSimilarity, calculateTemporalCorrelation, calculateLocationCorrelation,
      pyStripLower, pyLowerChar, ENTITY_RESOLUTION_CONFIG, qMax, zeroFuzz, eqFuzz, C1r, D1]
  unfold findEntityMatches
  rw [htake]
  have hpairs : allPairs [A1, B1, C1r, D1] =
      [(A1, B1), (A1, C1r), (A1, D1), (B1, C1r), (B1, D1), (C1r, D1)] := by
    simp [allPairs]
  rw [hpairs]
  simp only [List.filterMap_cons, hAB, hAC, hAD, hBC, hBD, hCD]
  norm_num [mAC, mBD, ENTITY_RESOLUTION_CONFIG]

/-- The fixture run end to end: four records, two clusters, two
resolved entities that both carry the shared email `"x@y"`. -/
theorem resolve_example :
    resolveEntities zeroFuzz eqFuzz ENTITY_RESOLUTION_CONFIG [A1, B1, C1r, D1] =
      [ENT0, ENT1] := by
  unfold resolveEntities
  rw [resolver_matches_example]
  norm_num +decide [clusterEntities, buildClusters, addEdge, clusterEdgeWeights,
    firstDedup, firstDedupAux, mean, mkResolvedEntity, collectIds, lookupRecord, truthy,
    pad6, List.mapIdx, List.mapIdx.go, ENTITY_RESOLUTION_CONFIG, mAC, mBD,
    A1, B1, C1r, D1, ENT0, ENT1]

/-- Claim C1 (amended): in the output of `resolve_entities`, the
identifier sets that feed a direct match channel — entity_ids,
card_ids, device_hashes and face_ids — are pairwise disjoint across
distinct resolved entities, provided the threshold is at most `0.85`
(default `0.8`) and record ids are unique.  (The remaining kinds —
emails, names, student_ids, staff_ids — are NOT guaranteed disjoint;
see the counterexample.) -/
theorem identifier_disjointness (nameFuzz emailFuzz : String → String → ℚ)
    (cfg : ResolutionConfig) (recs : List ERecord)
    (hθ : cfg.fuzzy_match_threshold ≤ 17/20)
    (hnd : (recs.map (fun r => r.record_id)).Nodup) :
    List.Pairwise (fun e1 e2 =>
      (∀ x, x ∈ e1.entity_ids → x ∈ e2.entity_ids → False) ∧
      (∀ x, x ∈ e1.card_ids → x ∈ e2.card_ids → False) ∧
      (∀ x, x ∈ e1.device_hashes → x ∈ e2.device_hashes → False) ∧
      (∀ x, x ∈ e1.face_ids → x ∈ e2.face_ids → False))
      (resolveEntities nameFuzz emailFuzz cfg recs) := by
  unfold resolveEntities
  refine pairwise_mapIdx _
    (fun c1 c2 =>
      (c1 ∈ buildClusters (findEntityMatches nameFuzz emailFuzz cfg recs) ∧
        c2 ∈ buildClusters (findEntityMatches nameFuzz emailFuzz cfg recs)) ∧
      ∀ y, y ∈ c1 → y ∈ c2 → False) _ _ ?_ ?_
  · rintro i j c1 c2 ⟨⟨hm1, hm2⟩, hd⟩
    have key : ∀ f : ERecord → Option String,
        (∀ r1 r2 : ERecord, checkDirectMatch (f r1) (f r2) = true →
          checkDirectMatch r1.entity_id r2.entity_id = true ∨
          checkDirectMatch r1.card_id r2.card_id = true ∨
          checkDirectMatch r1.device_hash r2.device_hash = true ∨
          checkDirectMatch r1.face_id r2.face_id = true) →
        ∀ x, x ∈ collectIds recs c1 f → x ∈ collectIds recs c2 f → False := by
      intro f hchan x hx1 hx2
      have hceq := shared_id_same_cluster nameFuzz emailFuzz cfg recs hθ hnd f hchan
        c1 c2 hm1 hm2 x hx1 hx2
      obtain ⟨rid, hrid, _⟩ := mem_collectIds hx1
      exact hd rid hrid (hceq ▸ hrid)
    refine ⟨?_, ?_, ?_, ?_⟩
    · intro x hx1 hx2
      exact key (fun r => r.entity_id) (fun r1 r2 h => Or.inl h) x hx1 hx2
    · intro x hx1 hx2
      exact key (fun r => r.card_id) (fun r1 r2 h => Or.inr (Or.inl h)) x hx1 hx2
    · intro x hx1 hx2
      exact key (fun r => r.device_hash) (fun r1 r2 h => Or.inr (Or.inr (Or.inl h))) x hx1 hx2
    · intro x hx1 hx2
      exact key (fun r => r.face_id) (fun r1 r2 h => Or.inr (Or.inr (Or.inr h))) x hx1 hx2
  · refine List.Pairwise.imp_of_mem ?_ (clusterEntities_disjoint cfg _)
    intro a b ha hb hr
    exact ⟨⟨clusterEntities_subset cfg _ a ha, clusterEntities_subset cfg _ b hb⟩, hr⟩

/-- Claim C1 counterexample: two profiles that only share an email
address resolve into two DISTINCT entities both carrying the email
`"x@y"` — the email identifier sets are not disjoint, because the email
channel contributes at most `0.7 < 0.8` and never merges on its own. -/
theorem identifier_disjointness_counterexample :
    ENT0 ∈ resolveEntities zeroFuzz eqFuzz ENTITY_RESOLUTION_CONFIG [A1, B1, C1r, D1] ∧
    ENT1 ∈ resolveEntities zeroFuzz eqFuzz ENTITY_RESOLUTION_CONFIG [A1, B1, C1r, D1] ∧
    ENT0 ≠ ENT1 ∧ "x@y" ∈ ENT0.emails ∧ "x@y" ∈ ENT1.emails := by
  refine ⟨?_, ?_, ?_, by decide, by decide⟩
  · rw [resolve_example]
    exact List.mem_cons_self _ _
  · rw [resolve_example]
    exact List.mem_cons.mpr (Or.inr (List.mem_cons_self _ _))
  · intro h
    exact absurd (congrArg ResolvedEntity.unified_id h) (by decide)

/-- Claim C1 witness: the amended disjointness theorem applied to the
four fixture records at the default configuration. -/
theorem identifier_disjointness_witness :
    ENTITY_RESOLUTION_CONFIG.fuzzy_match_threshold ≤ 17/20 ∧
    (([A1, B1, C1r, D1].map (fun r => r.record_id)).Nodup) ∧
    List.Pairwise (fun e1 e2 =>
      (∀ x, x ∈ e1.entity_ids → x ∈ e2.entity_ids → False) ∧
      (∀ x, x ∈ e1.card_ids → x ∈ e2.card_ids → False) ∧
      (∀ x, x ∈ e1.device_hashes → x ∈ e2.device_hashes → False) ∧
      (∀ x, x ∈ e1.face_ids → x ∈ e2.face_ids → False))
      (resolveEntities zeroFuzz eqFuzz ENTITY_RESOLUTION_CONFIG [A1, B1, C1r, D1]) :=
  ⟨by norm_num [ENTITY_RESOLUTION_CONFIG], by decide,
    identifier_disjointness zeroFuzz eqFuzz ENTITY_RESOLUTION_CONFIG [A1, B1, C1r, D1]
      (by norm_num [ENTITY_RESOLUTION_CONFIG]) (by decide)⟩

/-- Claim C2 (amended): a record that participates in no accepted match
belongs to NO cluster (the resolver drops it — there are no singleton
clusters); a record that is an endpoint of some accepted match belongs
to exactly one cluster; and `resolve_entities` emits exactly one
resolved entity per surviving cluster. -/
theorem record_cluster_membership (nameFuzz emailFuzz : String → String → ℚ)
    (cfg : ResolutionConfig) (recs : List ERecord) (rid : String) :
    ((∀ m ∈ findEntityMatches nameFuzz emailFuzz cfg recs,
        rid ≠ m.source_id ∧ rid ≠ m.target_id) →
      ∀ c ∈ clusterEntities cfg (findEntityMatches nameFuzz emailFuzz cfg recs),
        rid ∉ c) ∧
    ((∃ m ∈ findEntityMatches nameFuzz emailFuzz cfg recs,
        rid = m.source_id ∨ rid = m.target_id) →
      ∃! c, c ∈ clusterEntities cfg (findEntityMatches nameFuzz emailFuzz cfg recs) ∧
        rid ∈ c) ∧
    (resolveEntities nameFuzz emailFuzz cfg recs).length =
      (clusterEntities cfg (findEntityMatches nameFuzz emailFuzz cfg recs)).length := by
  have hconf : ∀ m ∈ findEntityMatches nameFuzz emailFuzz cfg recs,
      cfg.fuzzy_match_threshold ≤ m.confidence :=
    fun m hm => (mem_findEntityMatches nameFuzz emailFuzz cfg recs m hm).1
  have heq := clusterEntities_eq_buildClusters cfg _ hconf
  refine ⟨?_, ?_, ?_⟩
  · intro hnm c hc hrc
    have hcb := clusterEntities_subset cfg _ c hc
    unfold buildClusters at hcb
    rcases mem_foldl_addEdge _ _ c hcb rid hrc with ⟨c0, hc0, _⟩ | ⟨m, hm, hend⟩
    · cases hc0
    · rcases hend with h | h
      · exact (hnm m hm).1 h
      · exact (hnm m hm).2 h
  · rintro ⟨m, hm, hend⟩
    obtain ⟨ce, hce, hsrc, htgt⟩ :=
      endpoints_in_foldl (findEntityMatches nameFuzz emailFuzz cfg recs) [] m hm
    have hceb : ce ∈ buildClusters (findEntityMatches nameFuzz emailFuzz cfg recs) := hce
    have hrce : rid ∈ ce := by
      rcases hend with h | h
      · exact h ▸ hsrc
      · exact h ▸ htgt
    refine ⟨ce, ⟨?_, hrce⟩, ?_⟩
    · rw [heq]
      exact hceb
    · rintro c' ⟨hc', hrc'⟩
      exact buildClusters_unique _ c' ce (clusterEntities_subset cfg _ c' hc') hceb
        rid hrc' hrce
  · unfold resolveEntities
    exact List.length_mapIdx

/-- Claim C2 counterexample: a lone record (no partner, hence no
accepted match) produces NO resolved entity at all — unmatched records
do not form singleton clusters, they are dropped. -/
theorem record_cluster_membership_counterexample :
    resolveEntities zeroFuzz eqFuzz ENTITY_RESOLUTION_CONFIG [A1] = [] := rfl

/-- Claim C2 witness: in the fixture run, the matched record
`"profile_E1"` lies in exactly one surviving cluster. -/
theorem record_cluster_membership_witness :
    ∃! c, c ∈ clusterEntities ENTITY_RESOLUTION_CONFIG
        (findEntityMatches zeroFuzz eqFuzz ENTITY_RESOLUTION_CONFIG [A1, B1, C1r, D1]) ∧
      "profile_E1" ∈ c :=
  (record_cluster_membership zeroFuzz eqFuzz ENTITY_RESOLUTION_CONFIG [A1, B1, C1r, D1]
      "profile_E1").2.1
    ⟨mAC, by rw [resolver_matches_example]; exact List.mem_cons_self _ _, Or.inl rfl⟩

end Resolver

end SecureUs
